import Mathlib

/-!
# Verification of the DICOMwebBrowser download/cache/index pipeline

Shallow embedding of the core pipeline of
`DICOMwebBrowser/DICOMwebBrowser.py` (class `DICOMwebBrowserWidget`):

* the MD5 hex digest used for cache-file and staging-file names
  (`hashlib.md5(x.encode()).hexdigest()`),
* the study-list pagination loop and response cache of `connectToServer`,
* the series-list cache of `studySelected`,
* the download queue drain, instance download loop, cancellation flag and
  import/cleanup handoff of `downloadSelectedSeries`.

External collaborators (DICOMweb client, local DICOM database, indexer,
filesystem) are modelled as explicit parameters; the GUI event loop is
modelled by a counter of `slicer.app.processEvents()` calls, since the
`cancelDownloadRequested` flag can only change value while events are being
processed.
-/

set_option maxRecDepth 100000

namespace DICOMwebBrowser

/-! ## MD5 (faithful model of Python's `hashlib.md5(...).hexdigest()`) -/

/-- `2^32`, the word modulus of MD5. -/
def w32 : Nat := 4294967296

/-- 32-bit addition. -/
def add32 (a b : Nat) : Nat := (a + b) % w32

/-- 32-bit bitwise complement. -/
def not32 (a : Nat) : Nat := Nat.xor a (w32 - 1)

/-- 32-bit left rotation. -/
def rotl32 (x s : Nat) : Nat :=
  (Nat.lor (Nat.shiftLeft x s) (Nat.shiftRight x (32 - s))) % w32

/-- The 64 MD5 sine-derived constants (RFC 1321 `T` table). -/
def md5K : List Nat :=
  [0xd76aa478, 0xe8c7b756, 0x242070db, 0xc1bdceee,
   0xf57c0faf, 0x4787c62a, 0xa8304613, 0xfd469501,
   0x698098d8, 0x8b44f7af, 0xffff5bb1, 0x895cd7be,
   0x6b901122, 0xfd987193, 0xa679438e, 0x49b40821,
   0xf61e2562, 0xc040b340, 0x265e5a51, 0xe9b6c7aa,
   0xd62f105d, 0x02441453, 0xd8a1e681, 0xe7d3fbc8,
   0x21e1cde6, 0xc33707d6, 0xf4d50d87, 0x455a14ed,
   0xa9e3e905, 0xfcefa3f8, 0x676f02d9, 0x8d2a4c8a,
   0xfffa3942, 0x8771f681, 0x6d9d6122, 0xfde5380c,
   0xa4beea44, 0x4bdecfa9, 0xf6bb4b60, 0xbebfbc70,
   0x289b7ec6, 0xeaa127fa, 0xd4ef3085, 0x04881d05,
   0xd9d4d039, 0xe6db99e5, 0x1fa27cf8, 0xc4ac5665,
   0xf4292244, 0x432aff97, 0xab9423a7, 0xfc93a039,
   0x655b59c3, 0x8f0ccc92, 0xffeff47d, 0x85845dd1,
   0x6fa87e4f, 0xfe2ce6e0, 0xa3014314, 0x4e0811a1,
   0xf7537e82, 0xbd3af235, 0x2ad7d2bb, 0xeb86d391]

/-- The 64 per-round left-rotation amounts of MD5. -/
def md5S : List Nat :=
  [7, 12, 17, 22, 7, 12, 17, 22, 7, 12, 17, 22, 7, 12, 17, 22,
   5, 9, 14, 20, 5, 9, 14, 20, 5, 9, 14, 20, 5, 9, 14, 20,
   4, 11, 16, 23, 4, 11, 16, 23, 4, 11, 16, 23, 4, 11, 16, 23,
   6, 10, 15, 21, 6, 10, 15, 21, 6, 10, 15, 21, 6, 10, 15, 21]

/-- UTF-8 encoding of one Unicode code point (Python's `str.encode()`). -/
def utf8EncodeChar (c : Nat) : List Nat :=
  if c < 0x80 then [c]
  else if c < 0x800 then [0xC0 + c / 64, 0x80 + c % 64]
  else if c < 0x10000 then
    [0xE0 + c / 4096, 0x80 + (c / 64) % 64, 0x80 + c % 64]
  else
    [0xF0 + c / 262144, 0x80 + (c / 4096) % 64, 0x80 + (c / 64) % 64,
     0x80 + c % 64]

/-- UTF-8 bytes of a string. -/
def strBytes (s : String) : List Nat :=
  (s.data.map (fun c => utf8EncodeChar c.toNat)).flatten

/-- MD5 padding: append `0x80`, zero bytes up to 56 mod 64, then the
original bit length as a 64-bit little-endian quantity. -/
def md5Pad (msg : List Nat) : List Nat :=
  let zeros := (119 - msg.length % 64) % 64
  let bitLen := (msg.length * 8) % (2 ^ 64)
  msg ++ [0x80] ++ List.replicate zeros 0 ++
    ((List.range 8).map (fun i => (bitLen / 256 ^ i) % 256))

/-- Group bytes into little-endian 32-bit words. -/
def leWords : List Nat → List Nat
  | b0 :: b1 :: b2 :: b3 :: rest =>
    (b0 + 256 * b1 + 65536 * b2 + 16777216 * b3) :: leWords rest
  | _ => []

/-- One MD5 round applied to the running `(a, b, c, d)` state. -/
def md5Round (M : List Nat) (st : Nat × Nat × Nat × Nat) (i : Nat) :
    Nat × Nat × Nat × Nat :=
  let (a, b, c, d) := st
  let f :=
    if i < 16 then Nat.lor (Nat.land b c) (Nat.land (not32 b) d)
    else if i < 32 then Nat.lor (Nat.land d b) (Nat.land (not32 d) c)
    else if i < 48 then Nat.xor b (Nat.xor c d)
    else Nat.xor c (Nat.lor b (not32 d))
  let g :=
    if i < 16 then i
    else if i < 32 then (5 * i + 1) % 16
    else if i < 48 then (3 * i + 5) % 16
    else (7 * i) % 16
  let tmp := add32 (add32 (add32 f a) (md5K.getD i 0)) (M.getD g 0)
  (d, add32 b (rotl32 tmp (md5S.getD i 0)), b, c)

/-- Process one 64-byte block. -/
def md5Block (block : List Nat) (st : Nat × Nat × Nat × Nat) :
    Nat × Nat × Nat × Nat :=
  let M := leWords block
  let (a1, b1, c1, d1) := (List.range 64).foldl (md5Round M) st
  let (a, b, c, d) := st
  (add32 a a1, add32 b b1, add32 c c1, add32 d d1)

/-- Process `n` blocks of the padded message. -/
def md5ProcessBlocks : Nat → List Nat → (Nat × Nat × Nat × Nat) →
    Nat × Nat × Nat × Nat
  | 0, _, st => st
  | n + 1, bytes, st => md5ProcessBlocks n (bytes.drop 64) (md5Block (bytes.take 64) st)

/-- One lowercase hexadecimal digit. -/
def hexDigit (n : Nat) : Char :=
  if n < 10 then Char.ofNat (48 + n) else Char.ofNat (87 + n)

/-- Two lowercase hex digits of a byte. -/
def byteToHex (b : Nat) : List Char := [hexDigit (b / 16), hexDigit (b % 16)]

/-- Little-endian bytes of a 32-bit word. -/
def wordLEBytes (w : Nat) : List Nat :=
  [w % 256, (w / 256) % 256, (w / 65536) % 256, (w / 16777216) % 256]

/-- `hashlib.md5(s.encode()).hexdigest()`: the lowercase hex MD5 digest of
the UTF-8 encoding of `s`. -/
def md5Hex (s : String) : String :=
  let padded := md5Pad (strBytes s)
  let (a, b, c, d) :=
    md5ProcessBlocks (padded.length / 64) padded
      (0x67452301, 0xefcdab89, 0x98badcfe, 0x10325476)
  String.mk
    (((wordLEBytes a ++ wordLEBytes b ++ wordLEBytes c ++ wordLEBytes d).map
        byteToHex).flatten)

/-- Sanity check of the MD5 model against RFC 1321's first test vector. -/
theorem md5Hex_empty : md5Hex "" = "d41d8cd98f00b204e9800998ecf8427e" := by
  decide

/-- Sanity check of the MD5 model against RFC 1321's `"abc"` test vector. -/
theorem md5Hex_abc : md5Hex "abc" = "900150983cd24fb0d6963f7d28e17f72" := by
  decide

/-! ## Association-list helpers

The on-disk response cache (one JSON file per query key) and the local
filesystem are modelled as association lists from path to content. -/

/-- First-match lookup in an association list. -/
def alookup {α : Type} : List (String × α) → String → Option α
  | [], _ => none
  | (k', v) :: rest, k => if k' = k then some v else alookup rest k

/-- Store a value under a key, replacing the first existing binding
(Python's `open(path, 'w')` + `json.dump` overwrite semantics). -/
def astore {α : Type} : List (String × α) → String → α → List (String × α)
  | [], k, v => [(k, v)]
  | (k', v') :: rest, k, v =>
    if k' = k then (k, v) :: rest else (k', v') :: astore rest k v

/-- Remove every binding of a key. -/
def aerase {α : Type} (m : List (String × α)) (k : String) : List (String × α) :=
  m.filter (fun p => p.1 ≠ k)

theorem alookup_astore_self {α : Type} (m : List (String × α)) (k : String) (v : α) :
    alookup (astore m k v) k = some v := by
  induction m with
  | nil => simp [astore, alookup]
  | cons p rest ih =>
    by_cases h : p.1 = k
    · simp [astore, alookup, h]
    · simp [astore, alookup, h, ih]

theorem alookup_astore_of_ne {α : Type} (m : List (String × α)) (k k' : String)
    (v : α) (h : k ≠ k') : alookup (astore m k v) k' = alookup m k' := by
  induction m with
  | nil => simp [astore, alookup, h]
  | cons p rest ih =>
    by_cases hp : p.1 = k
    · simp [astore, alookup, hp, h]
    · simp [astore, alookup, hp, ih]

theorem alookup_aerase_self {α : Type} (m : List (String × α)) (k : String) :
    alookup (aerase m k) k = none := by
  induction m with
  | nil => simp [aerase, alookup]
  | cons p rest ih =>
    by_cases h : p.1 = k
    · simpa [aerase, alookup, h] using ih
    · simpa [aerase, alookup, h] using ih

theorem alookup_astore_isSome {α : Type} (m : List (String × α)) (k k' : String)
    (v : α) (h : (alookup m k').isSome = true) :
    (alookup (astore m k v) k').isSome = true := by
  by_cases hk : k = k'
  · subst hk; simp [alookup_astore_self]
  · rwa [alookup_astore_of_ne m k k' v hk]

/-! ## Response cache and metadata fetcher (`connectToServer`, `studySelected`)

Study and series records are identified by their JSON payloads; we model a
record as a `String`.  The remote DICOMweb client is modelled as a function
that may raise (`Except`). -/

/-- The study-list cache file:
`cacheFile = self.cachePath + hashlib.md5(self.serverUrl.encode()).hexdigest() + '.json'`. -/
def studyCacheFileName (cachePath serverUrl : String) : String :=
  cachePath ++ md5Hex serverUrl ++ ".json"

/-- The series-list cache file:
`cacheFile = self.cachePath + self.selectedStudyInstanceUID + '.json'`. -/
def seriesCacheFileName (cachePath studyInstanceUID : String) : String :=
  cachePath ++ studyInstanceUID ++ ".json"

/-- Outcome of the study pagination loop of `connectToServer`:
either the concatenated pages plus the number of page requests issued, a
fetch failure (with the number of requests issued up to and including the
failing one), or fuel exhaustion (the unbounded `while True` loop is still
running after `fuel` requests). -/
inductive PageFetch where
  | ok (studies : List String) (requests : Nat)
  | fail (requests : Nat)
  | fuelOut
deriving DecidableEq, Repr

/-- The pagination loop of `connectToServer` (lines 578-590):

```
studies = []
offset = 0
while True:
    subset = self.DICOMwebClient.search_for_studies(offset=offset, ...)
    if len(subset) == 0:
        break
    if subset[0] in studies:
        break
    studies.extend(subset)
    offset += len(subset)
```
-/
def fetchAllStudies (server : Nat → Except Unit (List String)) :
    Nat → List String → Nat → Nat → PageFetch
  | 0, _, _, _ => .fuelOut
  | fuel + 1, studies, offset, requests =>
    match server offset with
    | .error _ => .fail (requests + 1)
    | .ok subset =>
      match subset with
      | [] => .ok studies (requests + 1)
      | s0 :: _ =>
        if s0 ∈ studies then .ok studies (requests + 1)
        else
          fetchAllStudies server fuel (studies ++ subset)
            (offset + subset.length) (requests + 1)

/-- Observable outcome of a study-list or series-list request. -/
structure FetchResult where
  /-- The list handed to `populateStudiesTableWidget` /
  `populateSeriesTableWidget`; `none` when an error dialog was shown or the
  pagination loop was still running at fuel exhaustion. -/
  displayed : Option (List String)
  /-- The response-cache directory after the call. -/
  cache : List (String × List String)
  /-- Number of requests issued to the DICOMweb client. -/
  requests : Nat
  /-- Whether the error message box was shown. -/
  errorShown : Bool
deriving DecidableEq, Repr

/-- Lines 562-567 of `connectToServer`: read the cached study list, treating
a missing file, a disabled cache flag, or an empty payload as a miss. -/
def cachedStudies (cache : List (String × List String)) (useCache : Bool)
    (cacheFile : String) : Option (List String) :=
  if useCache then
    match alookup cache cacheFile with
    | some l => if l.length = 0 then none else some l
    | none => none
  else none

/-- The study-list portion of `connectToServer` (lines 529-605): consult the
cache, otherwise page through the server; on success overwrite the cache
file, on failure show an error and leave the cache untouched. -/
def connectToServerStudies (cachePath : String)
    (cache : List (String × List String)) (useCache : Bool) (serverUrl : String)
    (server : Nat → Except Unit (List String)) (fuel : Nat) : FetchResult :=
  let cacheFile := studyCacheFileName cachePath serverUrl
  match cachedStudies cache useCache cacheFile with
  | some l => { displayed := some l, cache := cache, requests := 0, errorShown := false }
  | none =>
    match fetchAllStudies server fuel [] 0 0 with
    | .ok studies req =>
      { displayed := some studies, cache := astore cache cacheFile studies,
        requests := req, errorShown := false }
    | .fail req =>
      { displayed := none, cache := cache, requests := req, errorShown := true }
    | .fuelOut =>
      { displayed := none, cache := cache, requests := fuel, errorShown := false }

/-- The series-list portion of `studySelected` (lines 614-655): note that,
unlike the study branch, a cached payload is trusted even when it is the
empty list. -/
def studySelectedSeries (cachePath : String)
    (cache : List (String × List String)) (useCache : Bool)
    (studyInstanceUID : String) (server : Except Unit (List String)) :
    FetchResult :=
  let cacheFile := seriesCacheFileName cachePath studyInstanceUID
  match (if useCache then alookup cache cacheFile else none) with
  | some series =>
    { displayed := some series, cache := cache, requests := 0, errorShown := false }
  | none =>
    match server with
    | .ok series =>
      { displayed := some series, cache := astore cache cacheFile series,
        requests := 1, errorShown := false }
    | .error _ =>
      { displayed := none, cache := cache, requests := 1, errorShown := true }

/-! ## Filesystem model for the staging directories

A filesystem is an association list from directory path to the names of the
files directly under it. -/

/-- Directory path to direct-file-name map. -/
abbrev FileSys := List (String × List String)

/-- `os.path.exists` on a directory. -/
def dirExists (fs : FileSys) (dir : String) : Bool := (alookup fs dir).isSome

/-- `os.makedirs`. -/
def makedirs (fs : FileSys) (dir : String) : FileSys := astore fs dir []

/-- `os.path.isfile(dir + name)`. -/
def isfile (fs : FileSys) (dir : String) (name : String) : Bool :=
  match alookup fs dir with
  | some files => decide (name ∈ files)
  | none => false

/-- `os.listdir`. -/
def listdir (fs : FileSys) (dir : String) : List String :=
  (alookup fs dir).getD []

/-- Writing a file (`pydicom.filewriter.write_file`): an existing file of the
same name is overwritten in place, never duplicated. -/
def writeFile (fs : FileSys) (dir : String) (name : String) : FileSys :=
  match alookup fs dir with
  | some files => astore fs dir (if name ∈ files then files else files ++ [name])
  | none => astore fs dir [name]

/-- `os.remove(os.path.join(dir, name))`. -/
def removeFile (fs : FileSys) (dir : String) (name : String) : FileSys :=
  astore fs dir ((listdir fs dir).erase name)

/-- Lines 865-867: `for f in os.listdir(dir): os.remove(...)` followed by
`os.rmdir(dir)`. -/
def removeFilesThenDir (fs : FileSys) (dir : String) : FileSys :=
  let fs1 := (listdir fs dir).foldl (fun acc f => removeFile acc dir f) fs
  aerase fs1 dir

/-! ## Download pipeline (`downloadSelectedSeries`) -/

/-- A queued download job (lines 740-741): the per-row dictionary
`{'studyInstanceUID': ..., 'seriesInstanceUID': ..., 'downloadFolderPath': ...}`. -/
structure DownloadJob where
  studyInstanceUID : String
  seriesInstanceUID : String
  downloadFolderPath : String
deriving DecidableEq, Repr

/-- The DICOMweb client collaborator, restricted to the calls issued by
`downloadSelectedSeries`; each call may raise. -/
structure DicomWebServer where
  searchForInstances : String → String → Except Unit (List String)
  retrieveInstance : String → String → String → Except Unit Unit

/-- Observable actions of one queue drain, in program order. -/
inductive PipelineEvent where
  | searchInstances (study series : String)
  | retrieveInstance (study series sop : String)
  | wroteFile (folder name : String)
  | progressMax (series : String) (n : Nat)
  | progressValue (series : String) (v : Nat)
  | indexerAddDirectory (folder : String)
  | errorMessageBox (series : String)
  | removedUnprocessed (series : String)
deriving DecidableEq, Repr

/-- Pipeline state threaded through the drain: the filesystem, the number of
`slicer.app.processEvents()` calls performed so far (`showStatus` calls
`processEvents`, as do line 810, line 832 and the modal error dialog), and
the log of observable actions. -/
structure PipelineState where
  fs : FileSys
  pe : Nat
  trace : List PipelineEvent
deriving DecidableEq, Repr

/-- The `cancelDownloadRequested` flag can only change while Qt events are
being processed, so its value is a function of the `processEvents` counter:
`cancelAt = some c` means the flag reads `true` once at least `c` calls have
completed, `none` means the cancel button is never pressed. -/
def cancelFlag (cancelAt : Option Nat) (t : Nat) : Bool :=
  match cancelAt with
  | some c => decide (c ≤ t)
  | none => false

/-- Line 839: the staging file of one instance,
`hashlib.md5(sopInstanceUid.encode()).hexdigest() + '.dcm'`. -/
def instanceFileName (sop : String) : String := md5Hex sop ++ ".dcm"

/-- The body of one iteration of the instance loop (lines 830-847), after
the cancellation check: update the progress bar, process events, skip the
instance if it is already in the local database, otherwise retrieve it
unless its staging file exists and the cache flag is on.  `.error` models a
raised exception from `retrieve_instance`. -/
def instStep (server : DicomWebServer) (useCache : Bool)
    (study series folder : String) (alreadyInDatabase : List String)
    (idx : Nat) (sop : String) (st : PipelineState) :
    Except PipelineState PipelineState :=
  let st1 : PipelineState :=
    { st with trace := st.trace ++ [.progressValue series idx], pe := st.pe + 1 }
  if sop ∈ alreadyInDatabase then .ok st1
  else if !(isfile st1.fs folder (instanceFileName sop)) || !useCache then
    let st2 : PipelineState :=
      { st1 with trace := st1.trace ++ [.retrieveInstance study series sop] }
    match server.retrieveInstance study series sop with
    | .error _ => .error st2
    | .ok _ =>
      .ok { st2 with fs := writeFile st2.fs folder (instanceFileName sop),
                     trace := st2.trace ++ [.wroteFile folder (instanceFileName sop)] }
  else .ok st1

/-- The instance loop (lines 827-847) over the enumerated instance list:
`for instanceIndex, instance in enumerate(instances)`, breaking as soon as
the cancellation flag reads `true`. -/
def downloadInstancesLoop (server : DicomWebServer) (useCache : Bool)
    (cancelAt : Option Nat) (study series folder : String)
    (alreadyInDatabase : List String) :
    List (Nat × String) → PipelineState → Except PipelineState PipelineState
  | [], st => .ok st
  | (idx, sop) :: rest, st =>
    if cancelFlag cancelAt st.pe then .ok st
    else
      match instStep server useCache study series folder alreadyInDatabase idx sop st with
      | .error st' => .error st'
      | .ok st' =>
        downloadInstancesLoop server useCache cancelAt study series folder
          alreadyInDatabase rest st'

/-- How one job ended: the line 854-855 reads of `cancelDownloadRequested`,
or the `except` handler. -/
inductive JobOutcome where
  | success
  | cancelled
  | failed
deriving DecidableEq, Repr

/-- Lines 795-800: create the staging directory if missing, then
`showStatus` (which processes events) and the `search_for_instances` call. -/
def jobStartState (job : DownloadJob) (st : PipelineState) : PipelineState :=
  let stDir : PipelineState :=
    if dirExists st.fs job.downloadFolderPath then st
    else { st with fs := makedirs st.fs job.downloadFolderPath }
  { stDir with pe := stDir.pe + 1,
               trace := stDir.trace ++
                 [.searchInstances job.studyInstanceUID job.seriesInstanceUID] }

/-- Lines 807-825: the state right before the instance loop — `showStatus`
and `slicer.app.processEvents()` (two event-processing points), then the
progress bar is set to `{0, numberOfInstances}`. -/
def jobPreLoopState (job : DownloadJob) (n : Nat) (st : PipelineState) :
    PipelineState :=
  { jobStartState job st with
      pe := (jobStartState job st).pe + 2,
      trace := (jobStartState job st).trace ++
        [.progressMax job.seriesInstanceUID n,
         .progressValue job.seriesInstanceUID 0] }

/-- Processing of one popped job (lines 791-876): list the instances, run
the instance loop, and — only when the loop ended with the cancellation flag
unset — hand the staging directory to the indexer, wait, delete every file
under it and remove it.  Any raised exception is caught by the `except`
handler, which shows a modal error dialog.  The second component is the
job's outcome as read from the flag at lines 854-855. -/
def processJob (server : DicomWebServer) (instancesForSeries : String → List String)
    (useCache : Bool) (cancelAt : Option Nat) (job : DownloadJob)
    (st : PipelineState) : PipelineState × JobOutcome :=
  match server.searchForInstances job.studyInstanceUID job.seriesInstanceUID with
  | .error _ =>
    ({ jobStartState job st with
        trace := (jobStartState job st).trace ++
          [.errorMessageBox job.seriesInstanceUID],
        pe := (jobStartState job st).pe + 1 }, .failed)
  | .ok instances =>
    match downloadInstancesLoop server useCache cancelAt job.studyInstanceUID
        job.seriesInstanceUID job.downloadFolderPath
        (instancesForSeries job.seriesInstanceUID) instances.enum
        (jobPreLoopState job instances.length st) with
    | .error st3 =>
      ({ st3 with trace := st3.trace ++ [.errorMessageBox job.seriesInstanceUID],
                  pe := st3.pe + 1 }, .failed)
    | .ok st3 =>
      if cancelFlag cancelAt st3.pe then (st3, .cancelled)
      else
        ({ st3 with
            trace := st3.trace ++
              [.progressValue job.seriesInstanceUID instances.length,
               .indexerAddDirectory job.downloadFolderPath],
            pe := st3.pe + 1,
            fs := removeFilesThenDir st3.fs job.downloadFolderPath }, .success)

/-- The drain loop (line 790):
`while self.downloadQueue and not self.cancelDownloadRequested`.  Returns
the final state together with the jobs left in the queue at loop exit. -/
def drainQueue (server : DicomWebServer) (instancesForSeries : String → List String)
    (useCache : Bool) (cancelAt : Option Nat) :
    List DownloadJob → PipelineState → PipelineState × List DownloadJob
  | [], st => (st, [])
  | job :: rest, st =>
    if cancelFlag cancelAt st.pe then (st, job :: rest)
    else
      drainQueue server instancesForSeries useCache cancelAt rest
        (processJob server instancesForSeries useCache cancelAt job st).1

/-- `downloadSelectedSeries` (lines 786-885): drain the queue, then discard
any jobs that remain (cancellation), notifying each as removed without
processing. -/
def downloadSelectedSeries (server : DicomWebServer)
    (instancesForSeries : String → List String) (useCache : Bool)
    (cancelAt : Option Nat) (queue : List DownloadJob) (st : PipelineState) :
    PipelineState :=
  let r := drainQueue server instancesForSeries useCache cancelAt queue st
  { r.1 with trace := r.1.trace ++
      r.2.map (fun j => .removedUnprocessed j.seriesInstanceUID) }

/-- Number of `retrieve_instance` network calls recorded in a trace. -/
def isRetrieveEvent : PipelineEvent → Bool
  | .retrieveInstance _ _ _ => true
  | _ => false

/-- Number of indexer handoffs (`indexer.addDirectory`) recorded in a trace. -/
def isIndexerEvent : PipelineEvent → Bool
  | .indexerAddDirectory _ => true
  | _ => false

/-- Count of trace events satisfying a predicate. -/
def countEvents (p : PipelineEvent → Bool) (tr : List PipelineEvent) : Nat :=
  (tr.filter p).length

/-- The value shown by a series' progress bar after the trace has been
replayed: the last `progressValue` event for that series. -/
def lastProgressValue (series : String) (tr : List PipelineEvent) : Option Nat :=
  tr.foldl
    (fun acc e =>
      match e with
      | .progressValue s v => if s = series then some v else acc
      | _ => acc)
    none

/-! ## Helper lemmas about the filesystem model -/

theorem isfile_writeFile_self (fs : FileSys) (d n : String) :
    isfile (writeFile fs d n) d n = true := by
  unfold isfile writeFile
  cases h : alookup fs d with
  | none => simp [alookup_astore_self]
  | some files =>
    by_cases hn : n ∈ files <;> simp [alookup_astore_self, hn]

theorem isfile_writeFile_mono (fs : FileSys) (d n d' n' : String)
    (h : isfile fs d' n' = true) : isfile (writeFile fs d n) d' n' = true := by
  unfold isfile at h ⊢
  by_cases hd : d = d'
  · subst hd
    cases hfs : alookup fs d with
    | none => rw [hfs] at h; exact absurd h (by simp)
    | some files =>
      rw [hfs] at h
      unfold writeFile
      rw [hfs]
      by_cases hn : n ∈ files <;>
        simp_all [alookup_astore_self, List.mem_append]
  · have : alookup (writeFile fs d n) d' = alookup fs d' := by
      unfold writeFile
      cases alookup fs d <;> exact alookup_astore_of_ne _ _ _ _ hd
    rw [this]; exact h

theorem isfile_writeFile_ne (fs : FileSys) (d n n' : String) (h : n' ≠ n) :
    isfile (writeFile fs d n) d n' = isfile fs d n' := by
  unfold isfile writeFile
  cases hfs : alookup fs d with
  | none => simp [alookup_astore_self, h]
  | some files =>
    by_cases hn : n ∈ files <;> simp [alookup_astore_self, hn, h]

theorem dirExists_writeFile (fs : FileSys) (d n d' : String)
    (h : (alookup fs d').isSome = true) :
    (alookup (writeFile fs d n) d').isSome = true := by
  unfold writeFile
  cases alookup fs d <;> exact alookup_astore_isSome _ _ _ _ h

theorem alookup_removeFilesThenDir_self (fs : FileSys) (d : String) :
    alookup (removeFilesThenDir fs d) d = none := by
  unfold removeFilesThenDir
  exact alookup_aerase_self _ _

/-! ## Helper lemmas about one instance-loop iteration

The four possible behaviours of `instStep`: skip on database membership,
skip on a cached staging file, successful retrieval, raised retrieval. -/

theorem instStep_eq_skip (server : DicomWebServer) (useCache : Bool)
    (study series folder : String) (db : List String) (idx : Nat) (sop : String)
    (st : PipelineState) (h : sop ∈ db) :
    instStep server useCache study series folder db idx sop st =
      .ok { st with trace := st.trace ++ [.progressValue series idx],
                    pe := st.pe + 1 } := by
  simp [instStep, h]

theorem instStep_eq_cached (server : DicomWebServer)
    (study series folder : String) (db : List String) (idx : Nat) (sop : String)
    (st : PipelineState) (h1 : sop ∉ db)
    (h2 : isfile st.fs folder (instanceFileName sop) = true) :
    instStep server true study series folder db idx sop st =
      .ok { st with trace := st.trace ++ [.progressValue series idx],
                    pe := st.pe + 1 } := by
  simp [instStep, h1, h2]

theorem instStep_eq_retrieve_ok (server : DicomWebServer) (useCache : Bool)
    (study series folder : String) (db : List String) (idx : Nat) (sop : String)
    (st : PipelineState) (h1 : sop ∉ db)
    (h2 : isfile st.fs folder (instanceFileName sop) = false ∨ useCache = false)
    (h3 : server.retrieveInstance study series sop = .ok ()) :
    instStep server useCache study series folder db idx sop st =
      .ok { st with fs := writeFile st.fs folder (instanceFileName sop),
                    trace := st.trace ++
                      [.progressValue series idx,
                       .retrieveInstance study series sop,
                       .wroteFile folder (instanceFileName sop)],
                    pe := st.pe + 1 } := by
  rcases h2 with h2 | h2 <;> simp [instStep, h1, h2, h3]

theorem instStep_eq_retrieve_error (server : DicomWebServer) (useCache : Bool)
    (study series folder : String) (db : List String) (idx : Nat) (sop : String)
    (st : PipelineState) (e : Unit) (h1 : sop ∉ db)
    (h2 : isfile st.fs folder (instanceFileName sop) = false ∨ useCache = false)
    (h3 : server.retrieveInstance study series sop = .error e) :
    instStep server useCache study series folder db idx sop st =
      .error { st with trace := st.trace ++
                         [.progressValue series idx,
                          .retrieveInstance study series sop],
                       pe := st.pe + 1 } := by
  rcases h2 with h2 | h2 <;> simp [instStep, h1, h2, h3]

/-- Every `instStep` result has one of three shapes: a skip, a successful
retrieval with its file write, or a raised retrieval. -/
theorem instStep_shape (server : DicomWebServer) (useCache : Bool)
    (study series folder : String) (db : List String) (idx : Nat) (sop : String)
    (st : PipelineState) :
    instStep server useCache study series folder db idx sop st =
      .ok { st with trace := st.trace ++ [.progressValue series idx],
                    pe := st.pe + 1 } ∨
    instStep server useCache study series folder db idx sop st =
      .ok { st with fs := writeFile st.fs folder (instanceFileName sop),
                    trace := st.trace ++
                      [.progressValue series idx,
                       .retrieveInstance study series sop,
                       .wroteFile folder (instanceFileName sop)],
                    pe := st.pe + 1 } ∨
    instStep server useCache study series folder db idx sop st =
      .error { st with trace := st.trace ++
                         [.progressValue series idx,
                          .retrieveInstance study series sop],
                       pe := st.pe + 1 } := by
  by_cases h1 : sop ∈ db
  · exact Or.inl (instStep_eq_skip _ _ _ _ _ _ _ _ _ h1)
  · by_cases h2 : (!(isfile st.fs folder (instanceFileName sop)) || !useCache) = true
    · have h2' : isfile st.fs folder (instanceFileName sop) = false ∨ useCache = false := by
        rcases Bool.or_eq_true_iff.mp h2 with h | h
        · exact Or.inl (by simpa using h)
        · exact Or.inr (by simpa using h)
      cases h3 : server.retrieveInstance study series sop with
      | ok u =>
        cases u
        exact Or.inr (Or.inl (instStep_eq_retrieve_ok _ _ _ _ _ _ _ _ _ h1 h2' h3))
      | error e =>
        exact Or.inr (Or.inr (instStep_eq_retrieve_error _ _ _ _ _ _ _ _ _ e h1 h2' h3))
    · have hf : isfile st.fs folder (instanceFileName sop) = true := by
        by_contra hf
        rw [Bool.not_eq_true] at hf
        exact h2 (by simp [hf])
      have hc : useCache = true := by
        by_contra hc
        rw [Bool.not_eq_true] at hc
        exact h2 (by simp [hc])
      subst hc
      exact Or.inl (instStep_eq_cached _ _ _ _ _ _ _ _ h1 hf)

theorem instStep_pe (server : DicomWebServer) (useCache : Bool)
    (study series folder : String) (db : List String) (idx : Nat) (sop : String)
    (st r : PipelineState)
    (h : instStep server useCache study series folder db idx sop st = .ok r ∨
         instStep server useCache study series folder db idx sop st = .error r) :
    r.pe = st.pe + 1 := by
  rcases instStep_shape server useCache study series folder db idx sop st with
    hs | hs | hs <;> rcases h with h | h <;> rw [hs] at h <;> simp_all <;>
    rw [← h]

theorem instStep_ok_of_retrieveOk (server : DicomWebServer) (useCache : Bool)
    (study series folder : String) (db : List String) (idx : Nat) (sop : String)
    (st : PipelineState)
    (h : server.retrieveInstance study series sop = .ok ()) :
    ∃ r, instStep server useCache study series folder db idx sop st = .ok r := by
  by_cases h1 : sop ∈ db
  · exact ⟨_, instStep_eq_skip server useCache study series folder db idx sop st h1⟩
  · by_cases hf : isfile st.fs folder (instanceFileName sop) = true
    · by_cases hc : useCache = true
      · subst hc
        exact ⟨_, instStep_eq_cached server study series folder db idx sop st h1 hf⟩
      · have hc' : useCache = false := by simpa using hc
        exact ⟨_, instStep_eq_retrieve_ok server useCache study series folder db
          idx sop st h1 (Or.inr hc') h⟩
    · have hf' : isfile st.fs folder (instanceFileName sop) = false := by
        simpa using hf
      exact ⟨_, instStep_eq_retrieve_ok server useCache study series folder db
        idx sop st h1 (Or.inl hf') h⟩

theorem instStep_preserve (server : DicomWebServer) (useCache : Bool)
    (study series folder : String) (db : List String) (idx : Nat) (sop : String)
    (st r : PipelineState)
    (h : instStep server useCache study series folder db idx sop st = .ok r ∨
         instStep server useCache study series folder db idx sop st = .error r) :
    (∀ d n, isfile st.fs d n = true → isfile r.fs d n = true) ∧
    (∀ d, (alookup st.fs d).isSome = true → (alookup r.fs d).isSome = true) ∧
    (∀ f nm, PipelineEvent.wroteFile f nm ∈ r.trace →
      PipelineEvent.wroteFile f nm ∈ st.trace ∨ isfile r.fs f nm = true) := by
  rcases instStep_shape server useCache study series folder db idx sop st with
    hs | hs | hs
  · have hr : r = { st with trace := st.trace ++ [.progressValue series idx],
                            pe := st.pe + 1 } := by
      rcases h with h | h <;> rw [hs] at h
      · exact (Except.ok.inj h).symm
      · exact absurd h (by simp)
    subst hr
    refine ⟨fun d n hh => hh, fun d hh => hh, ?_⟩
    intro f nm hmem
    simp only [List.mem_append, List.mem_singleton] at hmem
    rcases hmem with hmem | hmem
    · exact Or.inl hmem
    · exact absurd hmem (by simp)
  · have hr : r = { st with fs := writeFile st.fs folder (instanceFileName sop),
                            trace := st.trace ++
                              [.progressValue series idx,
                               .retrieveInstance study series sop,
                               .wroteFile folder (instanceFileName sop)],
                            pe := st.pe + 1 } := by
      rcases h with h | h <;> rw [hs] at h
      · exact (Except.ok.inj h).symm
      · exact absurd h (by simp)
    subst hr
    refine ⟨fun d n hh => isfile_writeFile_mono _ _ _ _ _ hh,
      fun d hh => dirExists_writeFile _ _ _ _ hh, ?_⟩
    intro f nm hmem
    simp only [List.mem_append, List.mem_cons, List.not_mem_nil, or_false] at hmem
    rcases hmem with hmem | hmem | hmem | hmem
    · exact Or.inl hmem
    · exact absurd hmem (by simp)
    · exact absurd hmem (by simp)
    · have hinj := PipelineEvent.wroteFile.inj hmem
      right
      rw [hinj.1, hinj.2]
      exact isfile_writeFile_self _ _ _
  · have hr : r = { st with trace := st.trace ++
                              [.progressValue series idx,
                               .retrieveInstance study series sop],
                            pe := st.pe + 1 } := by
      rcases h with h | h <;> rw [hs] at h
      · exact absurd h (by simp)
      · exact (Except.error.inj h).symm
    subst hr
    refine ⟨fun d n hh => hh, fun d hh => hh, ?_⟩
    intro f nm hmem
    simp only [List.mem_append, List.mem_cons, List.not_mem_nil, or_false] at hmem
    rcases hmem with hmem | hmem | hmem
    · exact Or.inl hmem
    · exact absurd hmem (by simp)
    · exact absurd hmem (by simp)

/-! ## Helper lemmas about the instance loop and one whole job -/

theorem downloadInstancesLoop_ok (server : DicomWebServer) (useCache : Bool)
    (study series folder : String) (db : List String) :
    ∀ (l : List (Nat × String)) (st : PipelineState),
      (∀ p ∈ l, server.retrieveInstance study series p.2 = .ok ()) →
      ∃ r, downloadInstancesLoop server useCache none study series folder db l st
        = .ok r := by
  intro l
  induction l with
  | nil => exact fun st _ => ⟨st, rfl⟩
  | cons p rest ih =>
    intro st hc
    obtain ⟨idx, sop⟩ := p
    obtain ⟨r1, hr1⟩ := instStep_ok_of_retrieveOk server useCache study series
      folder db idx sop st (hc (idx, sop) (List.mem_cons_self _ _))
    obtain ⟨r2, hr2⟩ := ih r1 (fun q hq => hc q (List.mem_cons_of_mem _ hq))
    refine ⟨r2, ?_⟩
    simp only [downloadInstancesLoop, cancelFlag, Bool.false_eq_true, if_false]
    rw [hr1]
    exact hr2

theorem downloadInstancesLoop_preserve (server : DicomWebServer) (useCache : Bool)
    (cancelAt : Option Nat) (study series folder : String) (db : List String) :
    ∀ (l : List (Nat × String)) (st r : PipelineState),
      (downloadInstancesLoop server useCache cancelAt study series folder db l st
          = .ok r ∨
       downloadInstancesLoop server useCache cancelAt study series folder db l st
          = .error r) →
      (∀ d n, isfile st.fs d n = true → isfile r.fs d n = true) ∧
      (∀ d, (alookup st.fs d).isSome = true → (alookup r.fs d).isSome = true) ∧
      (∀ f nm, PipelineEvent.wroteFile f nm ∈ r.trace →
        PipelineEvent.wroteFile f nm ∈ st.trace ∨ isfile r.fs f nm = true) := by
  intro l
  induction l with
  | nil =>
    intro st r h
    have hsr : st = r := by
      rcases h with h | h
      · exact Except.ok.inj h
      · exact absurd h (by simp [downloadInstancesLoop])
    subst hsr
    exact ⟨fun d n hh => hh, fun d hh => hh, fun f nm hm => Or.inl hm⟩
  | cons p rest ih =>
    intro st r h
    obtain ⟨idx, sop⟩ := p
    by_cases hflag : cancelFlag cancelAt st.pe = true
    · have hl : downloadInstancesLoop server useCache cancelAt study series folder
          db ((idx, sop) :: rest) st = .ok st := by
        simp [downloadInstancesLoop, hflag]
      rw [hl] at h
      have hsr : st = r := by
        rcases h with h | h
        · exact Except.ok.inj h
        · exact absurd h (by simp)
      subst hsr
      exact ⟨fun d n hh => hh, fun d hh => hh, fun f nm hm => Or.inl hm⟩
    · have hflag' : cancelFlag cancelAt st.pe = false := by simpa using hflag
      cases hstep : instStep server useCache study series folder db idx sop st with
      | error st' =>
        have hl : downloadInstancesLoop server useCache cancelAt study series
            folder db ((idx, sop) :: rest) st = .error st' := by
          simp [downloadInstancesLoop, hflag', hstep]
        rw [hl] at h
        have hsr : st' = r := by
          rcases h with h | h
          · exact absurd h (by simp)
          · exact Except.error.inj h
        subst hsr
        exact instStep_preserve server useCache study series folder db idx sop
          st st' (Or.inr hstep)
      | ok st' =>
        have hl : downloadInstancesLoop server useCache cancelAt study series
            folder db ((idx, sop) :: rest) st =
            downloadInstancesLoop server useCache cancelAt study series folder
              db rest st' := by
          simp [downloadInstancesLoop, hflag', hstep]
        rw [hl] at h
        have p1 := instStep_preserve server useCache study series folder db idx
          sop st st' (Or.inl hstep)
        have p2 := ih st' r h
        refine ⟨fun d n hh => p2.1 d n (p1.1 d n hh),
                fun d hh => p2.2.1 d (p1.2.1 d hh), ?_⟩
        intro f nm hmem
        rcases p2.2.2 f nm hmem with hmem' | hpres
        · rcases p1.2.2 f nm hmem' with h0 | hfile
          · exact Or.inl h0
          · exact Or.inr (p2.1 f nm hfile)
        · exact Or.inr hpres

theorem jobStartState_pe (job : DownloadJob) (st : PipelineState) :
    (jobStartState job st).pe = st.pe + 1 := by
  unfold jobStartState
  split <;> rfl

theorem jobStartState_trace (job : DownloadJob) (st : PipelineState) :
    (jobStartState job st).trace = st.trace ++
      [.searchInstances job.studyInstanceUID job.seriesInstanceUID] := by
  unfold jobStartState
  split <;> rfl

theorem jobStartState_dir (job : DownloadJob) (st : PipelineState) :
    (alookup (jobStartState job st).fs job.downloadFolderPath).isSome = true := by
  unfold jobStartState
  split
  · next h => simpa [dirExists] using h
  · simp [makedirs, alookup_astore_self]

theorem jobPreLoopState_pe (job : DownloadJob) (n : Nat) (st : PipelineState) :
    (jobPreLoopState job n st).pe = st.pe + 3 := by
  unfold jobPreLoopState
  rw [jobStartState_pe]

theorem jobPreLoopState_trace (job : DownloadJob) (n : Nat) (st : PipelineState) :
    (jobPreLoopState job n st).trace = st.trace ++
      [.searchInstances job.studyInstanceUID job.seriesInstanceUID,
       .progressMax job.seriesInstanceUID n,
       .progressValue job.seriesInstanceUID 0] := by
  unfold jobPreLoopState
  rw [jobStartState_trace]
  simp

theorem jobPreLoopState_dir (job : DownloadJob) (n : Nat) (st : PipelineState) :
    (alookup (jobPreLoopState job n st).fs job.downloadFolderPath).isSome = true := by
  unfold jobPreLoopState
  exact jobStartState_dir job st

theorem processJob_search_error (server : DicomWebServer)
    (dbF : String → List String) (useCache : Bool) (cancelAt : Option Nat)
    (job : DownloadJob) (st : PipelineState) (e : Unit)
    (hsearch : server.searchForInstances job.studyInstanceUID job.seriesInstanceUID
      = .error e) :
    processJob server dbF useCache cancelAt job st =
      ({ jobStartState job st with
          trace := (jobStartState job st).trace ++
            [.errorMessageBox job.seriesInstanceUID],
          pe := (jobStartState job st).pe + 1 }, .failed) := by
  unfold processJob
  rw [hsearch]

theorem processJob_loop_error (server : DicomWebServer)
    (dbF : String → List String) (useCache : Bool) (cancelAt : Option Nat)
    (job : DownloadJob) (st st3 : PipelineState) (insts : List String)
    (hsearch : server.searchForInstances job.studyInstanceUID job.seriesInstanceUID
      = .ok insts)
    (hloop : downloadInstancesLoop server useCache cancelAt job.studyInstanceUID
      job.seriesInstanceUID job.downloadFolderPath (dbF job.seriesInstanceUID)
      insts.enum (jobPreLoopState job insts.length st) = .error st3) :
    processJob server dbF useCache cancelAt job st =
      ({ st3 with trace := st3.trace ++ [.errorMessageBox job.seriesInstanceUID],
                  pe := st3.pe + 1 }, .failed) := by
  unfold processJob
  rw [hsearch]
  simp only
  rw [hloop]

theorem processJob_cancelled_eq (server : DicomWebServer)
    (dbF : String → List String) (useCache : Bool) (cancelAt : Option Nat)
    (job : DownloadJob) (st st3 : PipelineState) (insts : List String)
    (hsearch : server.searchForInstances job.studyInstanceUID job.seriesInstanceUID
      = .ok insts)
    (hloop : downloadInstancesLoop server useCache cancelAt job.studyInstanceUID
      job.seriesInstanceUID job.downloadFolderPath (dbF job.seriesInstanceUID)
      insts.enum (jobPreLoopState job insts.length st) = .ok st3)
    (hflag : cancelFlag cancelAt st3.pe = true) :
    processJob server dbF useCache cancelAt job st = (st3, .cancelled) := by
  unfold processJob
  rw [hsearch]
  simp only
  rw [hloop]
  simp [hflag]

theorem processJob_success_eq (server : DicomWebServer)
    (dbF : String → List String) (useCache : Bool) (cancelAt : Option Nat)
    (job : DownloadJob) (st st3 : PipelineState) (insts : List String)
    (hsearch : server.searchForInstances job.studyInstanceUID job.seriesInstanceUID
      = .ok insts)
    (hloop : downloadInstancesLoop server useCache cancelAt job.studyInstanceUID
      job.seriesInstanceUID job.downloadFolderPath (dbF job.seriesInstanceUID)
      insts.enum (jobPreLoopState job insts.length st) = .ok st3)
    (hflag : cancelFlag cancelAt st3.pe = false) :
    processJob server dbF useCache cancelAt job st =
      ({ st3 with
          trace := st3.trace ++
            [.progressValue job.seriesInstanceUID insts.length,
             .indexerAddDirectory job.downloadFolderPath],
          pe := st3.pe + 1,
          fs := removeFilesThenDir st3.fs job.downloadFolderPath }, .success) := by
  unfold processJob
  rw [hsearch]
  simp only
  rw [hloop]
  simp [hflag]

theorem snd_mem_of_mem_enumFrom {α : Type} :
    ∀ (l : List α) (i : Nat) (p : Nat × α), p ∈ List.enumFrom i l → p.2 ∈ l := by
  intro l
  induction l with
  | nil => intro i p h; exact absurd h (by simp [List.enumFrom])
  | cons x xs ih =>
    intro i p h
    simp only [List.enumFrom, List.mem_cons] at h
    rcases h with h | h
    · subst h; exact List.mem_cons_self _ _
    · exact List.mem_cons_of_mem _ (ih (i + 1) p h)

theorem snd_mem_of_mem_enum {α : Type} (l : List α) (p : Nat × α)
    (h : p ∈ List.enum l) : p.2 ∈ l :=
  snd_mem_of_mem_enumFrom l 0 p h

/-! ## Concrete fixtures used by witnesses and counterexamples -/

/-- A server whose instance search always returns `insts` and whose
retrievals always succeed. -/
def okServer (insts : List String) : DicomWebServer :=
  { searchForInstances := fun _ _ => .ok insts,
    retrieveInstance := fun _ _ _ => .ok () }

/-- Five remote instances. -/
def fiveInstances : List String := ["uidA", "uidB", "uidC", "uidD", "uidE"]

/-- A queued job. -/
def sampleJob : DownloadJob := ⟨"study1", "seriesX", "stage/"⟩

/-- A local database that already holds the first two of `fiveInstances`
for every series. -/
def twoInDatabase : String → List String := fun _ => ["uidA", "uidB"]

/-- An empty local database. -/
def emptyDatabase : String → List String := fun _ => []

/-! ## Claim C1 -/

/-- C1: for every job whose instance loop finishes without cancellation and
without error, after the indexer handoff every file directly under the
job's staging directory is deleted and the staging directory itself is
removed (the directory has no filesystem entry any more); for every job
that ends `cancelled`, the staging directory is still present and every
staged file written during the job is still on disk — cleanup is skipped
entirely. -/
theorem stagingCleanup_success_and_cancelled :
    (∀ (server : DicomWebServer) (dbF : String → List String) (useCache : Bool)
        (job : DownloadJob) (fs : FileSys) (t : Nat) (insts : List String),
        server.searchForInstances job.studyInstanceUID job.seriesInstanceUID
          = .ok insts →
        (∀ sop ∈ insts,
          server.retrieveInstance job.studyInstanceUID job.seriesInstanceUID sop
            = .ok ()) →
        (processJob server dbF useCache none job ⟨fs, t, []⟩).2 = .success ∧
        alookup (processJob server dbF useCache none job ⟨fs, t, []⟩).1.fs
          job.downloadFolderPath = none) ∧
    (∀ (server : DicomWebServer) (dbF : String → List String) (useCache : Bool)
        (cancelAt : Option Nat) (job : DownloadJob) (fs : FileSys) (t : Nat),
        (processJob server dbF useCache cancelAt job ⟨fs, t, []⟩).2 = .cancelled →
        (alookup (processJob server dbF useCache cancelAt job ⟨fs, t, []⟩).1.fs
          job.downloadFolderPath).isSome = true ∧
        (∀ nm, PipelineEvent.wroteFile job.downloadFolderPath nm ∈
            (processJob server dbF useCache cancelAt job ⟨fs, t, []⟩).1.trace →
          isfile (processJob server dbF useCache cancelAt job ⟨fs, t, []⟩).1.fs
            job.downloadFolderPath nm = true)) := by
  constructor
  · intro server dbF useCache job fs t insts hsearch hret
    obtain ⟨st3, hloop⟩ := downloadInstancesLoop_ok server useCache
      job.studyInstanceUID job.seriesInstanceUID job.downloadFolderPath
      (dbF job.seriesInstanceUID) insts.enum
      (jobPreLoopState job insts.length ⟨fs, t, []⟩)
      (fun p hp => hret p.2 (snd_mem_of_mem_enum insts p hp))
    have hflag : cancelFlag none st3.pe = false := rfl
    rw [processJob_success_eq server dbF useCache none job ⟨fs, t, []⟩ st3 insts
      hsearch hloop hflag]
    exact ⟨rfl, alookup_removeFilesThenDir_self _ _⟩
  · intro server dbF useCache cancelAt job fs t hcan
    cases hsearch : server.searchForInstances job.studyInstanceUID
        job.seriesInstanceUID with
    | error e =>
      rw [processJob_search_error server dbF useCache cancelAt job ⟨fs, t, []⟩ e
        hsearch] at hcan
      exact absurd hcan (by simp)
    | ok insts =>
      cases hloop : downloadInstancesLoop server useCache cancelAt
          job.studyInstanceUID job.seriesInstanceUID job.downloadFolderPath
          (dbF job.seriesInstanceUID) insts.enum
          (jobPreLoopState job insts.length ⟨fs, t, []⟩) with
      | error st3 =>
        rw [processJob_loop_error server dbF useCache cancelAt job ⟨fs, t, []⟩
          st3 insts hsearch hloop] at hcan
        exact absurd hcan (by simp)
      | ok st3 =>
        by_cases hflag : cancelFlag cancelAt st3.pe = true
        · rw [processJob_cancelled_eq server dbF useCache cancelAt job
            ⟨fs, t, []⟩ st3 insts hsearch hloop hflag] at hcan ⊢
          have hpre := downloadInstancesLoop_preserve server useCache cancelAt
            job.studyInstanceUID job.seriesInstanceUID job.downloadFolderPath
            (dbF job.seriesInstanceUID) insts.enum
            (jobPreLoopState job insts.length ⟨fs, t, []⟩) st3 (Or.inl hloop)
          constructor
          · exact hpre.2.1 job.downloadFolderPath
              (jobPreLoopState_dir job insts.length ⟨fs, t, []⟩)
          · intro nm hmem
            rcases hpre.2.2 job.downloadFolderPath nm hmem with hmem' | hfile
            · rw [jobPreLoopState_trace] at hmem'
              exact absurd hmem' (by simp)
            · exact hfile
        · have hflag' : cancelFlag cancelAt st3.pe = false := by simpa using hflag
          rw [processJob_success_eq server dbF useCache cancelAt job ⟨fs, t, []⟩
            st3 insts hsearch hloop hflag'] at hcan
          exact absurd hcan (by simp)

/-- Concrete instantiation of `stagingCleanup_success_and_cancelled`: an
uncancelled five-instance job ends `success` with its staging directory
gone, and the same job cancelled after its second instance ends
`cancelled` with the staging directory (and the staged files) still
present. -/
theorem stagingCleanup_success_and_cancelled_witness :
    ((processJob (okServer fiveInstances) emptyDatabase true (some 5) sampleJob
        ⟨[], 0, []⟩).2 = .cancelled) ∧
    ((processJob (okServer fiveInstances) twoInDatabase true none sampleJob
        ⟨[], 0, []⟩).2 = .success ∧
      alookup (processJob (okServer fiveInstances) twoInDatabase true none
        sampleJob ⟨[], 0, []⟩).1.fs sampleJob.downloadFolderPath = none) ∧
    ((alookup (processJob (okServer fiveInstances) emptyDatabase true (some 5)
        sampleJob ⟨[], 0, []⟩).1.fs sampleJob.downloadFolderPath).isSome = true) :=
  ⟨by decide,
   stagingCleanup_success_and_cancelled.1 (okServer fiveInstances) twoInDatabase
     true sampleJob [] 0 fiveInstances rfl (fun sop _ => rfl),
   (stagingCleanup_success_and_cancelled.2 (okServer fiveInstances) emptyDatabase
     true (some 5) sampleJob [] 0 (by decide)).1⟩

/-! ## Claim C3: cancellation mid-job -/

/-- Instance-loop segment lemma for a cancellation that first becomes
visible at the checkpoint before (0-based) instance `k`: entering the loop
at index `i` with event counter `T + i`, the loop ends normally, the
counter stops at `T + min k (i + |l|)`, the only retrievals logged beyond
those already in the entry trace are for instances among the first `k - i`
of the remainder, and no indexer handoff is logged. -/
theorem downloadInstancesLoop_cancel_segment (server : DicomWebServer)
    (useCache : Bool) (study series folder : String) (db : List String)
    (T k : Nat) :
    ∀ (l : List String) (i : Nat) (st : PipelineState),
      st.pe = T + i → i ≤ k →
      (∀ sop ∈ l, server.retrieveInstance study series sop = .ok ()) →
      ∃ r, downloadInstancesLoop server useCache (some (T + k)) study series
          folder db (List.enumFrom i l) st = .ok r ∧
        r.pe = T + min k (i + l.length) ∧
        (∀ sop, PipelineEvent.retrieveInstance study series sop ∈ r.trace →
          PipelineEvent.retrieveInstance study series sop ∈ st.trace ∨
            sop ∈ l.take (k - i)) ∧
        (∀ f, PipelineEvent.indexerAddDirectory f ∈ r.trace →
          PipelineEvent.indexerAddDirectory f ∈ st.trace) := by
  intro l
  induction l with
  | nil =>
    intro i st hpe hik _
    refine ⟨st, by simp [List.enumFrom, downloadInstancesLoop], ?_,
      fun sop h => Or.inl h, fun f h => h⟩
    rw [hpe]
    simp [Nat.min_eq_right hik]
  | cons x xs ih =>
    intro i st hpe hik hret
    by_cases hki : k ≤ i
    · have hflag : cancelFlag (some (T + k)) st.pe = true := by
        simp only [cancelFlag, hpe, decide_eq_true_eq]
        omega
      refine ⟨st, by simp [List.enumFrom, downloadInstancesLoop, hflag], ?_,
        fun sop h => Or.inl h, fun f h => h⟩
      rw [hpe]
      have hmin : min k (i + (x :: xs).length) = k :=
        Nat.min_eq_left (by simp [List.length_cons]; omega)
      rw [hmin]
      omega
    · have hlt : i < k := Nat.lt_of_not_le hki
      have hflag : cancelFlag (some (T + k)) st.pe = false := by
        simp only [cancelFlag, hpe, decide_eq_false_iff_not]
        omega
      have hx := hret x (List.mem_cons_self _ _)
      have hki1 : i + 1 ≤ k := hlt
      have hlen : (i + 1) + xs.length = i + (x :: xs).length := by
        simp [List.length_cons]
        omega
      have htk : k - i = (k - (i + 1)) + 1 := by omega
      rcases instStep_shape server useCache study series folder db i x st with
        hs | hs | hs
      · obtain ⟨r, hr, hrpe, hrretr, hrind⟩ := ih (i + 1)
          { st with trace := st.trace ++ [.progressValue series i],
                    pe := st.pe + 1 }
          (by simp only; omega) hki1
          (fun sop hm => hret sop (List.mem_cons_of_mem _ hm))
        refine ⟨r, ?_, ?_, ?_, ?_⟩
        · have heq : downloadInstancesLoop server useCache (some (T + k)) study
              series folder db (List.enumFrom i (x :: xs)) st =
              downloadInstancesLoop server useCache (some (T + k)) study series
                folder db (List.enumFrom (i + 1) xs)
                { st with trace := st.trace ++ [.progressValue series i],
                          pe := st.pe + 1 } := by
            simp [List.enumFrom, downloadInstancesLoop, hflag, hs]
          rw [heq]
          exact hr
        · rw [hrpe, hlen]
        · intro sop hmem
          rcases hrretr sop hmem with hmem1 | htake
          · simp only [List.mem_append, List.mem_singleton] at hmem1
            rcases hmem1 with hmem1 | hmem1
            · exact Or.inl hmem1
            · exact absurd hmem1 (by simp)
          · right
            rw [htk, List.take_succ_cons]
            exact List.mem_cons_of_mem _ htake
        · intro f hmem
          have := hrind f hmem
          simp only [List.mem_append, List.mem_singleton] at this
          rcases this with h0 | h0
          · exact h0
          · exact absurd h0 (by simp)
      · obtain ⟨r, hr, hrpe, hrretr, hrind⟩ := ih (i + 1)
          { st with fs := writeFile st.fs folder (instanceFileName x),
                    trace := st.trace ++
                      [.progressValue series i,
                       .retrieveInstance study series x,
                       .wroteFile folder (instanceFileName x)],
                    pe := st.pe + 1 }
          (by simp only; omega) hki1
          (fun sop hm => hret sop (List.mem_cons_of_mem _ hm))
        refine ⟨r, ?_, ?_, ?_, ?_⟩
        · have heq : downloadInstancesLoop server useCache (some (T + k)) study
              series folder db (List.enumFrom i (x :: xs)) st =
              downloadInstancesLoop server useCache (some (T + k)) study series
                folder db (List.enumFrom (i + 1) xs)
                { st with fs := writeFile st.fs folder (instanceFileName x),
                          trace := st.trace ++
                            [.progressValue series i,
                             .retrieveInstance study series x,
                             .wroteFile folder (instanceFileName x)],
                          pe := st.pe + 1 } := by
            simp [List.enumFrom, downloadInstancesLoop, hflag, hs]
          rw [heq]
          exact hr
        · rw [hrpe, hlen]
        · intro sop hmem
          rcases hrretr sop hmem with hmem1 | htake
          · simp only [List.mem_append, List.mem_cons, List.not_mem_nil,
              or_false] at hmem1
            rcases hmem1 with hmem1 | hmem1 | hmem1 | hmem1
            · exact Or.inl hmem1
            · exact absurd hmem1 (by simp)
            · right
              have hsx : sop = x := (PipelineEvent.retrieveInstance.inj hmem1).2.2
              rw [htk, List.take_succ_cons, hsx]
              exact List.mem_cons_self _ _
            · exact absurd hmem1 (by simp)
          · right
            rw [htk, List.take_succ_cons]
            exact List.mem_cons_of_mem _ htake
        · intro f hmem
          have := hrind f hmem
          simp only [List.mem_append, List.mem_cons, List.not_mem_nil,
            or_false] at this
          rcases this with h0 | h0 | h0 | h0
          · exact h0
          · exact absurd h0 (by simp)
          · exact absurd h0 (by simp)
          · exact absurd h0 (by simp)
      · obtain ⟨r1, hr1⟩ := instStep_ok_of_retrieveOk server useCache study
          series folder db i x st hx
        rw [hs] at hr1
        exact absurd hr1 (by simp)

/-- C3: if the cancellation flag first reads `true` at the checkpoint that
follows instance `k` of a job's instance loop (event counter `t + 3 + k`
for a job started at counter `t`), then no retrieval call is issued for any
of the remaining instances of that job, and the indexer handoff is not
performed for that job. -/
theorem cancellationAfterInstanceK (server : DicomWebServer)
    (dbF : String → List String) (useCache : Bool) (fs : FileSys) (t : Nat)
    (job : DownloadJob) (insts : List String) (k : Nat)
    (hsearch : server.searchForInstances job.studyInstanceUID
      job.seriesInstanceUID = .ok insts)
    (hret : ∀ sop ∈ insts,
      server.retrieveInstance job.studyInstanceUID job.seriesInstanceUID sop
        = .ok ())
    (hk : k ≤ insts.length) (hnd : insts.Nodup) :
    (∀ sop ∈ insts.drop k,
      PipelineEvent.retrieveInstance job.studyInstanceUID job.seriesInstanceUID
          sop ∉
        (processJob server dbF useCache (some (t + 3 + k)) job
          ⟨fs, t, []⟩).1.trace) ∧
    (∀ f, PipelineEvent.indexerAddDirectory f ∉
      (processJob server dbF useCache (some (t + 3 + k)) job
        ⟨fs, t, []⟩).1.trace) := by
  have hpe0 : (jobPreLoopState job insts.length ⟨fs, t, []⟩).pe = (t + 3) + 0 := by
    rw [jobPreLoopState_pe]
  obtain ⟨r, hr, hrpe, hrretr, hrind⟩ :=
    downloadInstancesLoop_cancel_segment server useCache job.studyInstanceUID
      job.seriesInstanceUID job.downloadFolderPath (dbF job.seriesInstanceUID)
      (t + 3) k insts 0 (jobPreLoopState job insts.length ⟨fs, t, []⟩) hpe0
      (Nat.zero_le k) hret
  have henum : insts.enum = List.enumFrom 0 insts := rfl
  have hloop : downloadInstancesLoop server useCache (some (t + 3 + k))
      job.studyInstanceUID job.seriesInstanceUID job.downloadFolderPath
      (dbF job.seriesInstanceUID) insts.enum
      (jobPreLoopState job insts.length ⟨fs, t, []⟩) = .ok r := by
    rw [henum]
    exact hr
  have hflag : cancelFlag (some (t + 3 + k)) r.pe = true := by
    rw [hrpe]
    simp only [cancelFlag, decide_eq_true_eq]
    have : min k (0 + insts.length) = k := Nat.min_eq_left (by omega)
    rw [this]
  have heq := processJob_cancelled_eq server dbF useCache (some (t + 3 + k))
    job ⟨fs, t, []⟩ r insts hsearch hloop hflag
  rw [heq]
  constructor
  · intro sop hsop hmem
    rcases hrretr sop hmem with hmem1 | htake
    · rw [jobPreLoopState_trace] at hmem1
      exact absurd hmem1 (by simp)
    · rw [Nat.sub_zero] at htake
      exact (List.disjoint_take_drop hnd (le_refl k)) htake hsop
  · intro f hmem
    have := hrind f hmem
    rw [jobPreLoopState_trace] at this
    exact absurd this (by simp)

/-- Concrete instantiation of `cancellationAfterInstanceK`: cancelling a
five-instance job after its second instance leaves the remaining three
instances unfetched and skips the indexer handoff. -/
theorem cancellationAfterInstanceK_witness :
    (2 ≤ fiveInstances.length ∧ fiveInstances.Nodup) ∧
    ((∀ sop ∈ fiveInstances.drop 2,
      PipelineEvent.retrieveInstance sampleJob.studyInstanceUID
          sampleJob.seriesInstanceUID sop ∉
        (processJob (okServer fiveInstances) emptyDatabase true (some 5)
          sampleJob ⟨[], 0, []⟩).1.trace) ∧
    (∀ f, PipelineEvent.indexerAddDirectory f ∉
      (processJob (okServer fiveInstances) emptyDatabase true (some 5)
        sampleJob ⟨[], 0, []⟩).1.trace)) :=
  ⟨⟨by decide, by decide⟩,
   cancellationAfterInstanceK (okServer fiveInstances) emptyDatabase true [] 0
     sampleJob fiveInstances 2 rfl (fun sop _ => rfl) (by decide) (by decide)⟩

/-! ## Claim C4: retrieval counting -/

theorem countEvents_append (p : PipelineEvent → Bool) (t1 t2 : List PipelineEvent) :
    countEvents p (t1 ++ t2) = countEvents p t1 + countEvents p t2 := by
  simp [countEvents, List.filter_append]

theorem length_filter_add (p : String → Bool) (l : List String) :
    (l.filter p).length + (l.filter (fun s => !(p s))).length = l.length := by
  induction l with
  | nil => rfl
  | cons x xs ih =>
    by_cases hx : p x = true <;>
      simp [List.filter_cons, hx, List.length_cons] <;> omega

theorem jobStartState_isfile_folder (job : DownloadJob) (st : PipelineState)
    (nm : String) :
    isfile (jobStartState job st).fs job.downloadFolderPath nm =
      isfile st.fs job.downloadFolderPath nm := by
  unfold jobStartState
  split
  · rfl
  · next h =>
    have hnone : alookup st.fs job.downloadFolderPath = none := by
      rw [← Option.not_isSome_iff_eq_none]
      simpa [dirExists] using h
    simp [isfile, makedirs, alookup_astore_self, hnone]

theorem downloadInstancesLoop_trace_mono (server : DicomWebServer)
    (useCache : Bool) (cancelAt : Option Nat) (study series folder : String)
    (db : List String) :
    ∀ (l : List (Nat × String)) (st r : PipelineState),
      (downloadInstancesLoop server useCache cancelAt study series folder db l st
          = .ok r ∨
       downloadInstancesLoop server useCache cancelAt study series folder db l st
          = .error r) →
      ∀ e ∈ st.trace, e ∈ r.trace := by
  intro l
  induction l with
  | nil =>
    intro st r h
    have hsr : st = r := by
      rcases h with h | h
      · exact Except.ok.inj h
      · exact absurd h (by simp [downloadInstancesLoop])
    subst hsr
    exact fun e he => he
  | cons p rest ih =>
    intro st r h
    obtain ⟨idx, sop⟩ := p
    by_cases hflag : cancelFlag cancelAt st.pe = true
    · have hl : downloadInstancesLoop server useCache cancelAt study series
          folder db ((idx, sop) :: rest) st = .ok st := by
        simp [downloadInstancesLoop, hflag]
      rw [hl] at h
      have hsr : st = r := by
        rcases h with h | h
        · exact Except.ok.inj h
        · exact absurd h (by simp)
      subst hsr
      exact fun e he => he
    · have hflag' : cancelFlag cancelAt st.pe = false := by simpa using hflag
      cases hstep : instStep server useCache study series folder db idx sop st with
      | error st' =>
        have hl : downloadInstancesLoop server useCache cancelAt study series
            folder db ((idx, sop) :: rest) st = .error st' := by
          simp [downloadInstancesLoop, hflag', hstep]
        rw [hl] at h
        have hsr : st' = r := by
          rcases h with h | h
          · exact absurd h (by simp)
          · exact Except.error.inj h
        subst hsr
        intro e he
        rcases instStep_shape server useCache study series folder db idx sop st
          with hs | hs | hs
        · rw [hs] at hstep
          exact absurd hstep (by simp)
        · rw [hs] at hstep
          exact absurd hstep (by simp)
        · rw [hs] at hstep
          have hrec := Except.error.inj hstep
          rw [← hrec]
          simp only [List.mem_append]
          exact Or.inl he
      | ok st' =>
        have hl : downloadInstancesLoop server useCache cancelAt study series
            folder db ((idx, sop) :: rest) st =
            downloadInstancesLoop server useCache cancelAt study series folder
              db rest st' := by
          simp [downloadInstancesLoop, hflag', hstep]
        rw [hl] at h
        intro e he
        refine ih st' r h e ?_
        rcases instStep_shape server useCache study series folder db idx sop st
          with hs | hs | hs
        · rw [hs] at hstep
          have hrec := Except.ok.inj hstep
          rw [← hrec]
          simp only [List.mem_append]
          exact Or.inl he
        · rw [hs] at hstep
          have hrec := Except.ok.inj hstep
          rw [← hrec]
          simp only [List.mem_append]
          exact Or.inl he
        · rw [hs] at hstep
          exact absurd hstep (by simp)

theorem downloadInstancesLoop_count (server : DicomWebServer) (useCache : Bool)
    (study series folder : String) (db : List String) :
    ∀ (l : List (Nat × String)) (st : PipelineState),
      (∀ p ∈ l, server.retrieveInstance study series p.2 = .ok ()) →
      (((l.map Prod.snd).filter (fun s => decide (s ∉ db))).map
        instanceFileName).Nodup →
      (∀ sop ∈ (l.map Prod.snd).filter (fun s => decide (s ∉ db)),
        isfile st.fs folder (instanceFileName sop) = false) →
      ∃ r, downloadInstancesLoop server useCache none study series folder db l st
          = .ok r ∧
        countEvents isRetrieveEvent r.trace =
          countEvents isRetrieveEvent st.trace +
            ((l.map Prod.snd).filter (fun s => decide (s ∉ db))).length := by
  intro l
  induction l with
  | nil =>
    intro st _ _ _
    exact ⟨st, rfl, by simp⟩
  | cons p rest ih =>
    intro st hret hnodup hfresh
    obtain ⟨idx, sop⟩ := p
    by_cases hdb : sop ∈ db
    · have hfilter : (((idx, sop) :: rest).map Prod.snd).filter
          (fun s => decide (s ∉ db)) =
          (rest.map Prod.snd).filter (fun s => decide (s ∉ db)) := by
        simp [List.filter_cons, hdb]
      rw [hfilter] at hnodup hfresh ⊢
      have hstep := instStep_eq_skip server useCache study series folder db idx
        sop st hdb
      obtain ⟨r, hr, hcount⟩ := ih
        { st with trace := st.trace ++ [.progressValue series idx],
                  pe := st.pe + 1 }
        (fun q hq => hret q (List.mem_cons_of_mem _ hq)) hnodup
        (fun sop' hm => hfresh sop' hm)
      refine ⟨r, ?_, ?_⟩
      · have heq : downloadInstancesLoop server useCache none study series folder
            db ((idx, sop) :: rest) st =
            downloadInstancesLoop server useCache none study series folder db
              rest
              { st with trace := st.trace ++ [.progressValue series idx],
                        pe := st.pe + 1 } := by
          simp [downloadInstancesLoop, cancelFlag, hstep]
        rw [heq]
        exact hr
      · rw [hcount]
        have hc1 : countEvents isRetrieveEvent
            (st.trace ++ [.progressValue series idx]) =
            countEvents isRetrieveEvent st.trace := by
          rw [countEvents_append]
          rfl
        simp only
        rw [hc1]
    · have hfilter : (((idx, sop) :: rest).map Prod.snd).filter
          (fun s => decide (s ∉ db)) =
          sop :: (rest.map Prod.snd).filter (fun s => decide (s ∉ db)) := by
        simp [List.filter_cons, hdb]
      rw [hfilter] at hnodup hfresh ⊢
      have hsopfresh : isfile st.fs folder (instanceFileName sop) = false :=
        hfresh sop (List.mem_cons_self _ _)
      have hstep := instStep_eq_retrieve_ok server useCache study series folder
        db idx sop st hdb (Or.inl hsopfresh)
        (hret (idx, sop) (List.mem_cons_self _ _))
      have hnodup2 : instanceFileName sop ∉
          ((rest.map Prod.snd).filter (fun s => decide (s ∉ db))).map
            instanceFileName ∧
          (((rest.map Prod.snd).filter (fun s => decide (s ∉ db))).map
            instanceFileName).Nodup :=
        List.nodup_cons.mp hnodup
      have hfresh' : ∀ sop' ∈ (rest.map Prod.snd).filter
          (fun s => decide (s ∉ db)),
          isfile (writeFile st.fs folder (instanceFileName sop)) folder
            (instanceFileName sop') = false := by
        intro sop' hm
        have hne : instanceFileName sop' ≠ instanceFileName sop := by
          intro hcontra
          exact hnodup2.1 (hcontra ▸ List.mem_map_of_mem instanceFileName hm)
        rw [isfile_writeFile_ne st.fs folder (instanceFileName sop)
          (instanceFileName sop') hne]
        exact hfresh sop' (List.mem_cons_of_mem _ hm)
      obtain ⟨r, hr, hcount⟩ := ih
        { st with fs := writeFile st.fs folder (instanceFileName sop),
                  trace := st.trace ++
                    [.progressValue series idx,
                     .retrieveInstance study series sop,
                     .wroteFile folder (instanceFileName sop)],
                  pe := st.pe + 1 }
        (fun q hq => hret q (List.mem_cons_of_mem _ hq)) hnodup2.2 hfresh'
      refine ⟨r, ?_, ?_⟩
      · have heq : downloadInstancesLoop server useCache none study series folder
            db ((idx, sop) :: rest) st =
            downloadInstancesLoop server useCache none study series folder db
              rest
              { st with fs := writeFile st.fs folder (instanceFileName sop),
                        trace := st.trace ++
                          [.progressValue series idx,
                           .retrieveInstance study series sop,
                           .wroteFile folder (instanceFileName sop)],
                        pe := st.pe + 1 } := by
          simp [downloadInstancesLoop, cancelFlag, hstep]
        rw [heq]
        exact hr
      · rw [hcount]
        have hc1 : countEvents isRetrieveEvent
            (st.trace ++
              [.progressValue series idx,
               .retrieveInstance study series sop,
               .wroteFile folder (instanceFileName sop)]) =
            countEvents isRetrieveEvent st.trace + 1 := by
          rw [countEvents_append]
          rfl
        simp only
        rw [hc1
          ]
        simp [List.length_cons]
        omega

theorem lastProgressValue_append_final (series : String)
    (tr : List PipelineEvent) (v : Nat) (f : String) :
    lastProgressValue series (tr ++
      [.progressValue series v, .indexerAddDirectory f]) = some v := by
  simp [lastProgressValue, List.foldl_append]

theorem enumFrom_map_snd {α : Type} :
    ∀ (i : Nat) (l : List α), (List.enumFrom i l).map Prod.snd = l := by
  intro i l
  induction l generalizing i with
  | nil => rfl
  | cons x xs ih => simp [List.enumFrom, ih]

theorem enum_map_snd {α : Type} (l : List α) : l.enum.map Prod.snd = l :=
  enumFrom_map_snd 0 l

/-- C4 (amended): for every job whose remote instance list has 5 instances
of which exactly 2 are already present in the local database for that
series, the downloader issues exactly 3 retrieve-instance calls and reports
final progress `{completed: 5, total: 5}` — provided the staging files of
the 3 to-be-fetched instances do not already exist on disk (otherwise the
staging-file cache of line 840 suppresses further retrievals, see the
counterexample) and their staging file names do not collide. -/
theorem downloaderRetrieveCount (server : DicomWebServer)
    (dbF : String → List String) (useCache : Bool) (fs : FileSys) (t : Nat)
    (job : DownloadJob) (insts : List String)
    (hsearch : server.searchForInstances job.studyInstanceUID
      job.seriesInstanceUID = .ok insts)
    (hret : ∀ sop ∈ insts,
      server.retrieveInstance job.studyInstanceUID job.seriesInstanceUID sop
        = .ok ())
    (hlen : insts.length = 5)
    (hdbcount : (insts.filter
      (fun s => decide (s ∈ dbF job.seriesInstanceUID))).length = 2)
    (hnodup : ((insts.filter
      (fun s => decide (s ∉ dbF job.seriesInstanceUID))).map
        instanceFileName).Nodup)
    (hfresh : ∀ sop ∈ insts.filter
        (fun s => decide (s ∉ dbF job.seriesInstanceUID)),
      isfile fs job.downloadFolderPath (instanceFileName sop) = false) :
    countEvents isRetrieveEvent
      (processJob server dbF useCache none job ⟨fs, t, []⟩).1.trace = 3 ∧
    (processJob server dbF useCache none job ⟨fs, t, []⟩).2 = .success ∧
    lastProgressValue job.seriesInstanceUID
      (processJob server dbF useCache none job ⟨fs, t, []⟩).1.trace = some 5 ∧
    PipelineEvent.progressMax job.seriesInstanceUID 5 ∈
      (processJob server dbF useCache none job ⟨fs, t, []⟩).1.trace := by
  have hfil : ((insts.enum.map Prod.snd).filter
      (fun s => decide (s ∉ dbF job.seriesInstanceUID))) =
      insts.filter (fun s => decide (s ∉ dbF job.seriesInstanceUID)) := by
    rw [enum_map_snd]
  have hlen3 : (insts.filter
      (fun s => decide (s ∉ dbF job.seriesInstanceUID))).length = 3 := by
    have hsum := length_filter_add
      (fun s => decide (s ∈ dbF job.seriesInstanceUID)) insts
    have hcongr : insts.filter
        (fun s => !(decide (s ∈ dbF job.seriesInstanceUID))) =
        insts.filter (fun s => decide (s ∉ dbF job.seriesInstanceUID)) :=
      List.filter_congr (fun s _ => by simp [decide_not])
    rw [hcongr, hlen, hdbcount] at hsum
    omega
  obtain ⟨r, hloop0, hcount⟩ := downloadInstancesLoop_count server useCache
    job.studyInstanceUID job.seriesInstanceUID job.downloadFolderPath
    (dbF job.seriesInstanceUID) insts.enum
    (jobPreLoopState job insts.length ⟨fs, t, []⟩)
    (fun p hp => hret p.2 (snd_mem_of_mem_enum insts p hp))
    (by rw [hfil]; exact hnodup)
    (by
      intro sop hm
      rw [hfil] at hm
      have hsame : isfile
          (jobPreLoopState job insts.length ⟨fs, t, []⟩).fs
          job.downloadFolderPath (instanceFileName sop) =
          isfile (PipelineState.mk fs t []).fs job.downloadFolderPath
            (instanceFileName sop) :=
        jobStartState_isfile_folder job ⟨fs, t, []⟩ (instanceFileName sop)
      rw [hsame]
      exact hfresh sop hm)
  have hcount3 : countEvents isRetrieveEvent r.trace = 3 := by
    rw [hcount, hfil, hlen3, jobPreLoopState_trace]
    rfl
  have hflag : cancelFlag none r.pe = false := rfl
  rw [processJob_success_eq server dbF useCache none job ⟨fs, t, []⟩ r insts
    hsearch hloop0 hflag]
  have hmaxmem : PipelineEvent.progressMax job.seriesInstanceUID insts.length ∈
      r.trace := by
    refine downloadInstancesLoop_trace_mono server useCache none
      job.studyInstanceUID job.seriesInstanceUID job.downloadFolderPath
      (dbF job.seriesInstanceUID) insts.enum
      (jobPreLoopState job insts.length ⟨fs, t, []⟩) r (Or.inl hloop0) _ ?_
    rw [jobPreLoopState_trace]
    simp
  rw [hlen] at hmaxmem ⊢
  refine ⟨?_, rfl, ?_, ?_⟩
  · rw [countEvents_append, hcount3]
    rfl
  · exact lastProgressValue_append_final job.seriesInstanceUID r.trace 5
      job.downloadFolderPath
  · simp only [List.mem_append]
    exact Or.inl hmaxmem

/-- C4 counterexample, refuting the unconditional claim: a job with the
five remote instances of `fiveInstances`, exactly two of which are in the
local database, but whose staging directory already contains the staging
file of `uidC` (with the use-cache flag on, its presence suppresses the
network retrieval at line 840), issues 2 retrieval calls — not 3 — while
still reporting final progress `{completed: 5, total: 5}`. -/
theorem downloaderRetrieveCount_counterexample :
    fiveInstances.length = 5 ∧
    (fiveInstances.filter
      (fun s => decide (s ∈ twoInDatabase "seriesX"))).length = 2 ∧
    countEvents isRetrieveEvent
      (processJob (okServer fiveInstances) twoInDatabase true none sampleJob
        ⟨[("stage/", [instanceFileName "uidC"])], 0, []⟩).1.trace = 2 ∧
    countEvents isRetrieveEvent
      (processJob (okServer fiveInstances) twoInDatabase true none sampleJob
        ⟨[("stage/", [instanceFileName "uidC"])], 0, []⟩).1.trace ≠ 3 ∧
    lastProgressValue "seriesX"
      (processJob (okServer fiveInstances) twoInDatabase true none sampleJob
        ⟨[("stage/", [instanceFileName "uidC"])], 0, []⟩).1.trace = some 5 := by
  refine ⟨by decide, by decide, by decide, by decide, by decide⟩

/-- Concrete instantiation of `downloaderRetrieveCount`: with an initially
absent staging directory, the five-instance job with two instances already
local issues exactly 3 retrievals and reports `{5, 5}`. -/
theorem downloaderRetrieveCount_witness :
    (fiveInstances.length = 5 ∧
     (fiveInstances.filter
       (fun s => decide (s ∈ twoInDatabase "seriesX"))).length = 2) ∧
    (countEvents isRetrieveEvent
      (processJob (okServer fiveInstances) twoInDatabase true none sampleJob
        ⟨[], 0, []⟩).1.trace = 3 ∧
    (processJob (okServer fiveInstances) twoInDatabase true none sampleJob
      ⟨[], 0, []⟩).2 = .success ∧
    lastProgressValue sampleJob.seriesInstanceUID
      (processJob (okServer fiveInstances) twoInDatabase true none sampleJob
        ⟨[], 0, []⟩).1.trace = some 5 ∧
    PipelineEvent.progressMax sampleJob.seriesInstanceUID 5 ∈
      (processJob (okServer fiveInstances) twoInDatabase true none sampleJob
        ⟨[], 0, []⟩).1.trace) :=
  ⟨⟨by decide, by decide⟩,
   downloaderRetrieveCount (okServer fiveInstances) twoInDatabase true [] 0
     sampleJob fiveInstances rfl (fun sop _ => rfl) (by decide) (by decide)
     (by decide) (by decide)⟩

/-! ## Claim C2: per-job failures do not abort the drain -/

/-- Three queued jobs over series `s1`, `s2`, `s3`. -/
def threeJobs : List DownloadJob :=
  [⟨"study1", "s1", "f1/"⟩, ⟨"study1", "s2", "f2/"⟩, ⟨"study1", "s3", "f3/"⟩]

/-- A server with one instance per series whose retrieval raises a
transient fetch error exactly for series `s2`. -/
def failingSecondServer : DicomWebServer :=
  { searchForInstances := fun _ series => .ok ["inst-" ++ series],
    retrieveInstance := fun _ series _ =>
      if series = "s2" then .error () else .ok () }

/-- C2: with no cancellation requested, the drain loop processes every
queued job regardless of each job's outcome — a raised per-job failure
never aborts the drain (first conjunct, for every queue); in particular,
draining the 3-job queue in which processing of job 2 raises a
`TransientFetchError` still processes job 3, and exactly 2 indexer
(Import/Cleanup) invocations occur, for jobs 1 and 3 (remaining
conjuncts). -/
theorem perJobFailureDoesNotAbortDrain :
    (∀ (server : DicomWebServer) (dbF : String → List String) (useCache : Bool)
        (queue : List DownloadJob) (st : PipelineState),
      drainQueue server dbF useCache none queue st =
        (queue.foldl
          (fun s j => (processJob server dbF useCache none j s).1) st, [])) ∧
    countEvents isIndexerEvent
      (downloadSelectedSeries failingSecondServer emptyDatabase true none
        threeJobs ⟨[], 0, []⟩).trace = 2 ∧
    PipelineEvent.indexerAddDirectory "f1/" ∈
      (downloadSelectedSeries failingSecondServer emptyDatabase true none
        threeJobs ⟨[], 0, []⟩).trace ∧
    PipelineEvent.indexerAddDirectory "f3/" ∈
      (downloadSelectedSeries failingSecondServer emptyDatabase true none
        threeJobs ⟨[], 0, []⟩).trace ∧
    PipelineEvent.indexerAddDirectory "f2/" ∉
      (downloadSelectedSeries failingSecondServer emptyDatabase true none
        threeJobs ⟨[], 0, []⟩).trace ∧
    PipelineEvent.retrieveInstance "study1" "s3" "inst-s3" ∈
      (downloadSelectedSeries failingSecondServer emptyDatabase true none
        threeJobs ⟨[], 0, []⟩).trace ∧
    PipelineEvent.errorMessageBox "s2" ∈
      (downloadSelectedSeries failingSecondServer emptyDatabase true none
        threeJobs ⟨[], 0, []⟩).trace := by
  refine ⟨?_, by decide, by decide, by decide, by decide, by decide, by decide⟩
  intro server dbF useCache queue
  induction queue with
  | nil => intro st; rfl
  | cons j rest ih =>
    intro st
    have hflag : cancelFlag none st.pe = false := rfl
    simp only [drainQueue, hflag, Bool.false_eq_true, if_false, List.foldl_cons]
    exact ih _

/-! ## Claim C5: empty cached payloads -/

/-- C5 (amended): for the study-list query an empty cached payload behaves
identically to a cache miss — the observable outcome (displayed list,
request count, error dialog) is the same as with the cache entry erased;
for the series-list query, however, an empty cached payload is trusted:
it is returned as-is with zero server requests (no refetch). -/
theorem emptyCachedPayloadRefetch :
    (∀ (cachePath : String) (cache : List (String × List String))
        (useCache : Bool) (url : String)
        (server : Nat → Except Unit (List String)) (fuel : Nat),
      alookup cache (studyCacheFileName cachePath url) = some [] →
      (connectToServerStudies cachePath cache useCache url server fuel).displayed
          = (connectToServerStudies cachePath
              (aerase cache (studyCacheFileName cachePath url)) useCache url
              server fuel).displayed ∧
      (connectToServerStudies cachePath cache useCache url server fuel).requests
          = (connectToServerStudies cachePath
              (aerase cache (studyCacheFileName cachePath url)) useCache url
              server fuel).requests ∧
      (connectToServerStudies cachePath cache useCache url server fuel).errorShown
          = (connectToServerStudies cachePath
              (aerase cache (studyCacheFileName cachePath url)) useCache url
              server fuel).errorShown) ∧
    (∀ (cachePath : String) (cache : List (String × List String))
        (uid : String) (server : Except Unit (List String)),
      alookup cache (seriesCacheFileName cachePath uid) = some [] →
      studySelectedSeries cachePath cache true uid server =
        { displayed := some [], cache := cache, requests := 0,
          errorShown := false }) := by
  constructor
  · intro cachePath cache useCache url server fuel hcached
    have h1 : cachedStudies cache useCache (studyCacheFileName cachePath url)
        = none := by
      unfold cachedStudies
      cases useCache <;> simp [hcached]
    have h2 : cachedStudies
        (aerase cache (studyCacheFileName cachePath url)) useCache
        (studyCacheFileName cachePath url) = none := by
      unfold cachedStudies
      cases useCache <;> simp [alookup_aerase_self]
    simp only [connectToServerStudies]
    rw [h1, h2]
    cases fetchAllStudies server fuel [] 0 0 <;> simp
  · intro cachePath cache uid server hcached
    simp [studySelectedSeries, hcached]

/-- C5 counterexample, refuting "this holds for both the study-list query
and the series-list query": with an empty cached series payload for study
`1.2.3`, `studySelected` returns the cached empty list and issues no server
request, whereas a true cache miss fetches and returns the server's series
list — the two behaviours differ. -/
theorem emptyCachedPayloadRefetch_counterexample :
    (studySelectedSeries "cache/"
      [(seriesCacheFileName "cache/" "1.2.3", ([] : List String))] true "1.2.3"
      (.ok ["SER1"])).requests = 0 ∧
    (studySelectedSeries "cache/"
      [(seriesCacheFileName "cache/" "1.2.3", ([] : List String))] true "1.2.3"
      (.ok ["SER1"])).displayed = some [] ∧
    (studySelectedSeries "cache/" [] true "1.2.3" (.ok ["SER1"])).requests = 1 ∧
    (studySelectedSeries "cache/" [] true "1.2.3"
      (.ok ["SER1"])).displayed = some ["SER1"] := by
  refine ⟨by decide, by decide, by decide, by decide⟩

/-- Concrete instantiation of `emptyCachedPayloadRefetch`: with an empty
cached study payload the observables equal those of the erased-entry run,
and with an empty cached series payload the cached empty list is returned
with zero requests. -/
theorem emptyCachedPayloadRefetch_witness :
    (alookup [(studyCacheFileName "cache/" "u", ([] : List String))]
      (studyCacheFileName "cache/" "u") = some [] ∧
     alookup [(seriesCacheFileName "cache/" "1.2.3", ([] : List String))]
      (seriesCacheFileName "cache/" "1.2.3") = some []) ∧
    ((connectToServerStudies "cache/"
        [(studyCacheFileName "cache/" "u", ([] : List String))] true "u"
        (fun _ => .ok []) 1).displayed
      = (connectToServerStudies "cache/"
          (aerase [(studyCacheFileName "cache/" "u", ([] : List String))]
            (studyCacheFileName "cache/" "u")) true "u"
          (fun _ => .ok []) 1).displayed ∧
     (connectToServerStudies "cache/"
        [(studyCacheFileName "cache/" "u", ([] : List String))] true "u"
        (fun _ => .ok []) 1).requests
      = (connectToServerStudies "cache/"
          (aerase [(studyCacheFileName "cache/" "u", ([] : List String))]
            (studyCacheFileName "cache/" "u")) true "u"
          (fun _ => .ok []) 1).requests ∧
     (connectToServerStudies "cache/"
        [(studyCacheFileName "cache/" "u", ([] : List String))] true "u"
        (fun _ => .ok []) 1).errorShown
      = (connectToServerStudies "cache/"
          (aerase [(studyCacheFileName "cache/" "u", ([] : List String))]
            (studyCacheFileName "cache/" "u")) true "u"
          (fun _ => .ok []) 1).errorShown) ∧
    studySelectedSeries "cache/"
      [(seriesCacheFileName "cache/" "1.2.3", ([] : List String))] true "1.2.3"
      (.ok ["SER1"]) =
      { displayed := some [],
        cache := [(seriesCacheFileName "cache/" "1.2.3", ([] : List String))],
        requests := 0, errorShown := false } :=
  ⟨⟨by simp [alookup], by simp [alookup]⟩,
   emptyCachedPayloadRefetch.1 "cache/"
     [(studyCacheFileName "cache/" "u", ([] : List String))] true "u"
     (fun _ => .ok []) 1 (by simp [alookup]),
   emptyCachedPayloadRefetch.2 "cache/"
     [(seriesCacheFileName "cache/" "1.2.3", ([] : List String))] "1.2.3"
     (.ok ["SER1"]) (by simp [alookup])⟩

/-! ## Claim C6: cache file names -/

/-- C6 (amended): study-list cache file names are the MD5 hex digest of the
server URL (`cachePath ++ md5Hex url ++ ".json"`, with `md5Hex` the real
MD5, evaluated here on a sample URL), and a successful study fetch writes
the cache under exactly that hash-named key; series-list cache file names,
by contrast, embed the raw `studyInstanceUID` (`cachePath ++ uid ++
".json"`) — deterministic, but not a hash. -/
theorem cacheFileNamesDeterministic :
    (∀ cachePath url : String,
      studyCacheFileName cachePath url = cachePath ++ md5Hex url ++ ".json") ∧
    md5Hex "http://server.example/dicomweb"
      = "25cc4d3ff270aecc49f3dd9371698b2e" ∧
    (∀ cachePath uid : String,
      seriesCacheFileName cachePath uid = cachePath ++ uid ++ ".json") ∧
    (∀ (cachePath : String) (cache : List (String × List String))
        (url : String) (server : Nat → Except Unit (List String)) (fuel : Nat)
        (studies : List String) (req : Nat),
      fetchAllStudies server fuel [] 0 0 = .ok studies req →
      alookup (connectToServerStudies cachePath cache false url server
          fuel).cache (cachePath ++ md5Hex url ++ ".json") = some studies) := by
  refine ⟨fun _ _ => rfl, by decide, fun _ _ => rfl, ?_⟩
  intro cachePath cache url server fuel studies req hfetch
  simp only [connectToServerStudies]
  have hc : cachedStudies cache false (studyCacheFileName cachePath url)
      = none := rfl
  rw [hc, hfetch]
  exact alookup_astore_self cache (studyCacheFileName cachePath url) studies

/-- C6 counterexample: the series-list cache file name for study `1.2.3`
is the raw-UID name `cache/1.2.3.json`, which differs from the MD5-hashed
name the claim prescribes for both query kinds. -/
theorem cacheFileNamesDeterministic_counterexample :
    seriesCacheFileName "cache/" "1.2.3" = "cache/1.2.3.json" ∧
    seriesCacheFileName "cache/" "1.2.3" ≠
      "cache/" ++ md5Hex "1.2.3" ++ ".json" := by
  refine ⟨by decide, by decide⟩

/-- Concrete instantiation of `cacheFileNamesDeterministic`: a successful
single-page fetch stores the study list under the hash-named cache key. -/
theorem cacheFileNamesDeterministic_witness :
    fetchAllStudies (fun _ => .ok []) 1 [] 0 0 = .ok [] 1 ∧
    alookup (connectToServerStudies "cache/" [] false "u" (fun _ => .ok [])
      1).cache ("cache/" ++ md5Hex "u" ++ ".json") = some [] :=
  ⟨rfl,
   cacheFileNamesDeterministic.2.2.2 "cache/" [] "u" (fun _ => .ok []) 1 [] 1
     rfl⟩

/-! ## Claims C7 and C8: pagination -/

/-- A mock server that returns the page `[A, B]` at every offset. -/
def alwaysSameServer : Nat → Except Unit (List String) := fun _ => .ok ["A", "B"]

/-- A mock server returning pages `[A, B]`, `[C]`, `[]` at offsets
0, 2, 3 respectively (and `[]` elsewhere). -/
def threePageServer : Nat → Except Unit (List String) := fun offset =>
  .ok (if offset = 0 then ["A", "B"] else if offset = 2 then ["C"] else [])

/-- C7: against a server that returns the same page `[A, B]` regardless of
the requested offset, the study pagination loop terminates — the loop-guard
fires when the first record of the new page duplicates the first record
already collected — after issuing exactly 2 page requests, returning
`[A, B]`; with an empty cache, `connectToServer`'s study listing shows
`[A, B]` and caches it. -/
theorem paginationLoopGuard (fuel : Nat) (hfuel : 2 ≤ fuel) :
    fetchAllStudies alwaysSameServer fuel [] 0 0 = .ok ["A", "B"] 2 ∧
    ∀ cachePath url : String,
      connectToServerStudies cachePath [] true url alwaysSameServer fuel =
        { displayed := some ["A", "B"],
          cache := [(studyCacheFileName cachePath url, ["A", "B"])],
          requests := 2, errorShown := false } := by
  obtain ⟨k, rfl⟩ : ∃ k, fuel = k + 2 := ⟨fuel - 2, by omega⟩
  have hfetch : fetchAllStudies alwaysSameServer (k + 2) [] 0 0
      = .ok ["A", "B"] 2 := rfl
  refine ⟨hfetch, ?_⟩
  intro cachePath url
  simp only [connectToServerStudies]
  have hc : cachedStudies [] true (studyCacheFileName cachePath url)
      = none := rfl
  rw [hc, hfetch]
  rfl

/-- Concrete instantiation of `paginationLoopGuard` at the minimum fuel. -/
theorem paginationLoopGuard_witness :
    2 ≤ 2 ∧ fetchAllStudies alwaysSameServer 2 [] 0 0 = .ok ["A", "B"] 2 :=
  ⟨by decide, (paginationLoopGuard 2 (by decide)).1⟩

/-- C8: against a server returning pages `[A, B]`, `[C]`, `[]` at offsets
0, 2, 3, the study pagination loop issues exactly 3 page requests and
returns the concatenation `[A, B, C]`; with an empty cache,
`connectToServer`'s study listing shows `[A, B, C]` and caches it. -/
theorem paginationTermination (fuel : Nat) (hfuel : 3 ≤ fuel) :
    fetchAllStudies threePageServer fuel [] 0 0 = .ok ["A", "B", "C"] 3 ∧
    ∀ cachePath url : String,
      connectToServerStudies cachePath [] true url threePageServer fuel =
        { displayed := some ["A", "B", "C"],
          cache := [(studyCacheFileName cachePath url, ["A", "B", "C"])],
          requests := 3, errorShown := false } := by
  obtain ⟨k, rfl⟩ : ∃ k, fuel = k + 3 := ⟨fuel - 3, by omega⟩
  have hfetch : fetchAllStudies threePageServer (k + 3) [] 0 0
      = .ok ["A", "B", "C"] 3 := rfl
  refine ⟨hfetch, ?_⟩
  intro cachePath url
  simp only [connectToServerStudies]
  have hc : cachedStudies [] true (studyCacheFileName cachePath url)
      = none := rfl
  rw [hc, hfetch]
  rfl

/-- Concrete instantiation of `paginationTermination` at the minimum fuel. -/
theorem paginationTermination_witness :
    3 ≤ 3 ∧ fetchAllStudies threePageServer 3 [] 0 0 = .ok ["A", "B", "C"] 3 :=
  ⟨by decide, (paginationTermination 3 (by decide)).1⟩

/-! ## Claim C9: fetch errors leave the cache unchanged -/

/-- C9: if the study pagination loop fails (some page request raised), the
error dialog is surfaced, nothing is displayed, and the cache directory is
left exactly unchanged — no partial concatenation is written. -/
theorem studyFetchErrorLeavesCacheUnchanged (cachePath : String)
    (cache : List (String × List String)) (useCache : Bool) (url : String)
    (server : Nat → Except Unit (List String)) (fuel req : Nat)
    (hfail : fetchAllStudies server fuel [] 0 0 = .fail req)
    (hmiss : cachedStudies cache useCache (studyCacheFileName cachePath url)
      = none) :
    (connectToServerStudies cachePath cache useCache url server fuel).cache
      = cache ∧
    (connectToServerStudies cachePath cache useCache url server fuel).errorShown
      = true ∧
    (connectToServerStudies cachePath cache useCache url server fuel).displayed
      = none := by
  simp only [connectToServerStudies]
  rw [hmiss, hfail]
  exact ⟨rfl, rfl, rfl⟩

/-- Concrete instantiation of `studyFetchErrorLeavesCacheUnchanged`: a
server whose very first page request raises leaves a one-entry cache
untouched and shows the error dialog. -/
theorem studyFetchErrorLeavesCacheUnchanged_witness :
    (fetchAllStudies (fun _ => .error ()) 1 [] 0 0 = .fail 1 ∧
     cachedStudies [("cache/other.json", ["X"])] true
       (studyCacheFileName "cache/" "u") = none) ∧
    ((connectToServerStudies "cache/" [("cache/other.json", ["X"])] true "u"
        (fun _ => .error ()) 1).cache = [("cache/other.json", ["X"])] ∧
     (connectToServerStudies "cache/" [("cache/other.json", ["X"])] true "u"
        (fun _ => .error ()) 1).errorShown = true ∧
     (connectToServerStudies "cache/" [("cache/other.json", ["X"])] true "u"
        (fun _ => .error ()) 1).displayed = none) :=
  ⟨⟨rfl, by decide⟩,
   studyFetchErrorLeavesCacheUnchanged "cache/" [("cache/other.json", ["X"])]
     true "u" (fun _ => .error ()) 1 1 rfl (by decide)⟩

/-! ## Claim C10: the staging-file cache of line 840 -/

theorem astore_astore {α : Type} (m : List (String × α)) (k : String) (v w : α) :
    astore (astore m k v) k w = astore m k w := by
  induction m with
  | nil => simp [astore]
  | cons p rest ih =>
    by_cases hp : p.1 = k
    · simp [astore, hp]
    · simp [astore, hp, ih]

theorem writeFile_idempotent (fs : FileSys) (d n : String) :
    writeFile (writeFile fs d n) d n = writeFile fs d n := by
  unfold writeFile
  cases hl : alookup fs d with
  | none =>
    rw [alookup_astore_self]
    simp [astore_astore]
  | some files =>
    by_cases hn : n ∈ files
    · simp only [hn, if_true]
      rw [alookup_astore_self]
      simp [hn, astore_astore]
    · simp only [hn, if_false]
      rw [alookup_astore_self]
      have : n ∈ files ++ [n] := by simp
      simp [this, astore_astore]

/-- C10: with the use-cache flag enabled, an instance that is not in the
local database but whose deterministically-named staging file already
exists on disk is not retrieved again — the job issues zero retrieval
calls (first conjunct); with the flag disabled, the instance is retrieved
and written to the same deterministic path `instanceFileName sop` even
though the file may already exist (second conjunct); and writing the same
instance file again overwrites in place — the filesystem is unchanged by a
second write, so no duplicate is created (third conjunct). -/
theorem stagingFileCacheSkipsRetrieval :
    (∀ (server : DicomWebServer) (dbF : String → List String) (fs : FileSys)
        (t : Nat) (study series folder sop : String),
      server.searchForInstances study series = .ok [sop] →
      sop ∉ dbF series →
      isfile fs folder (instanceFileName sop) = true →
      countEvents isRetrieveEvent
        (processJob server dbF true none ⟨study, series, folder⟩
          ⟨fs, t, []⟩).1.trace = 0) ∧
    (∀ (server : DicomWebServer) (dbF : String → List String) (fs : FileSys)
        (t : Nat) (study series folder sop : String),
      server.searchForInstances study series = .ok [sop] →
      server.retrieveInstance study series sop = .ok () →
      sop ∉ dbF series →
      PipelineEvent.retrieveInstance study series sop ∈
        (processJob server dbF false none ⟨study, series, folder⟩
          ⟨fs, t, []⟩).1.trace ∧
      PipelineEvent.wroteFile folder (instanceFileName sop) ∈
        (processJob server dbF false none ⟨study, series, folder⟩
          ⟨fs, t, []⟩).1.trace) ∧
    (∀ (fs : FileSys) (d n : String),
      writeFile (writeFile fs d n) d n = writeFile fs d n) := by
  refine ⟨?_, ?_, writeFile_idempotent⟩
  · intro server dbF fs t study series folder sop hsearch hdb hfile
    have hfile1 : isfile
        (jobPreLoopState ⟨study, series, folder⟩ 1 ⟨fs, t, []⟩).fs folder
        (instanceFileName sop) = true := by
      have hsame : isfile
          (jobPreLoopState ⟨study, series, folder⟩ 1 ⟨fs, t, []⟩).fs folder
          (instanceFileName sop) =
          isfile (PipelineState.mk fs t []).fs folder (instanceFileName sop) :=
        jobStartState_isfile_folder ⟨study, series, folder⟩ ⟨fs, t, []⟩
          (instanceFileName sop)
      rw [hsame]
      exact hfile
    have hstep := instStep_eq_cached server study series folder (dbF series) 0
      sop (jobPreLoopState ⟨study, series, folder⟩ 1 ⟨fs, t, []⟩) hdb hfile1
    have hloop : downloadInstancesLoop server true none study series folder
        (dbF series) (([sop] : List String).enum)
        (jobPreLoopState ⟨study, series, folder⟩ 1 ⟨fs, t, []⟩) =
        .ok { jobPreLoopState ⟨study, series, folder⟩ 1 ⟨fs, t, []⟩ with
                trace := (jobPreLoopState ⟨study, series, folder⟩ 1
                  ⟨fs, t, []⟩).trace ++ [.progressValue series 0],
                pe := (jobPreLoopState ⟨study, series, folder⟩ 1
                  ⟨fs, t, []⟩).pe + 1 } := by
      simp [downloadInstancesLoop, cancelFlag, hstep, List.enum, List.enumFrom]
    have hflag : cancelFlag none
        ({ jobPreLoopState ⟨study, series, folder⟩ 1 ⟨fs, t, []⟩ with
            trace := (jobPreLoopState ⟨study, series, folder⟩ 1
              ⟨fs, t, []⟩).trace ++ [.progressValue series 0],
            pe := (jobPreLoopState ⟨study, series, folder⟩ 1
              ⟨fs, t, []⟩).pe + 1 } : PipelineState).pe = false := rfl
    have heq := processJob_success_eq server dbF true none
      ⟨study, series, folder⟩ ⟨fs, t, []⟩ _ [sop] hsearch hloop hflag
    have htr : (processJob server dbF true none ⟨study, series, folder⟩
        ⟨fs, t, []⟩).1.trace =
        (jobPreLoopState ⟨study, series, folder⟩ 1 ⟨fs, t, []⟩).trace ++
          [.progressValue series 0] ++
          [.progressValue series 1, .indexerAddDirectory folder] := by
      rw [heq]
      rfl
    rw [htr, jobPreLoopState_trace]
    rfl
  · intro server dbF fs t study series folder sop hsearch hret hdb
    have hstep := instStep_eq_retrieve_ok server false study series folder
      (dbF series) 0 sop (jobPreLoopState ⟨study, series, folder⟩ 1 ⟨fs, t, []⟩)
      hdb (Or.inr rfl) hret
    have hloop : downloadInstancesLoop server false none study series folder
        (dbF series) (([sop] : List String).enum)
        (jobPreLoopState ⟨study, series, folder⟩ 1 ⟨fs, t, []⟩) =
        .ok { jobPreLoopState ⟨study, series, folder⟩ 1 ⟨fs, t, []⟩ with
                fs := writeFile
                  (jobPreLoopState ⟨study, series, folder⟩ 1 ⟨fs, t, []⟩).fs
                  folder (instanceFileName sop),
                trace := (jobPreLoopState ⟨study, series, folder⟩ 1
                  ⟨fs, t, []⟩).trace ++
                  [.progressValue series 0,
                   .retrieveInstance study series sop,
                   .wroteFile folder (instanceFileName sop)],
                pe := (jobPreLoopState ⟨study, series, folder⟩ 1
                  ⟨fs, t, []⟩).pe + 1 } := by
      simp [downloadInstancesLoop, cancelFlag, hstep, List.enum, List.enumFrom]
    have hflag : cancelFlag none
        ({ jobPreLoopState ⟨study, series, folder⟩ 1 ⟨fs, t, []⟩ with
            fs := writeFile
              (jobPreLoopState ⟨study, series, folder⟩ 1 ⟨fs, t, []⟩).fs
              folder (instanceFileName sop),
            trace := (jobPreLoopState ⟨study, series, folder⟩ 1
              ⟨fs, t, []⟩).trace ++
              [.progressValue series 0,
               .retrieveInstance study series sop,
               .wroteFile folder (instanceFileName sop)],
            pe := (jobPreLoopState ⟨study, series, folder⟩ 1
              ⟨fs, t, []⟩).pe + 1 } : PipelineState).pe = false := rfl
    have heq := processJob_success_eq server dbF false none
      ⟨study, series, folder⟩ ⟨fs, t, []⟩ _ [sop] hsearch hloop hflag
    have htr : (processJob server dbF false none ⟨study, series, folder⟩
        ⟨fs, t, []⟩).1.trace =
        (jobPreLoopState ⟨study, series, folder⟩ 1 ⟨fs, t, []⟩).trace ++
          [.progressValue series 0,
           .retrieveInstance study series sop,
           .wroteFile folder (instanceFileName sop)] ++
          [.progressValue series 1, .indexerAddDirectory folder] := by
      rw [heq]
      rfl
    rw [htr, jobPreLoopState_trace]
    constructor <;> simp

/-- Concrete instantiation of `stagingFileCacheSkipsRetrieval`: with the
cache flag on and the staging file of `uidA` already on disk the job makes
no retrieval call; with the flag off the instance is retrieved and its
staging file written; a repeated write leaves the filesystem unchanged. -/
theorem stagingFileCacheSkipsRetrieval_witness :
    (isfile [("stage/", [instanceFileName "uidA"])] "stage/"
      (instanceFileName "uidA") = true) ∧
    countEvents isRetrieveEvent
      (processJob (okServer ["uidA"]) emptyDatabase true none
        ⟨"study1", "seriesX", "stage/"⟩
        ⟨[("stage/", [instanceFileName "uidA"])], 0, []⟩).1.trace = 0 ∧
    (PipelineEvent.retrieveInstance "study1" "seriesX" "uidA" ∈
      (processJob (okServer ["uidA"]) emptyDatabase false none
        ⟨"study1", "seriesX", "stage/"⟩ ⟨[], 0, []⟩).1.trace ∧
     PipelineEvent.wroteFile "stage/" (instanceFileName "uidA") ∈
      (processJob (okServer ["uidA"]) emptyDatabase false none
        ⟨"study1", "seriesX", "stage/"⟩ ⟨[], 0, []⟩).1.trace) ∧
    writeFile (writeFile [] "stage/" "f.dcm") "stage/" "f.dcm" =
      writeFile [] "stage/" "f.dcm" :=
  ⟨by decide,
   stagingFileCacheSkipsRetrieval.1 (okServer ["uidA"]) emptyDatabase
     [("stage/", [instanceFileName "uidA"])] 0 "study1" "seriesX" "stage/"
     "uidA" rfl (by decide) (by decide),
   stagingFileCacheSkipsRetrieval.2.1 (okServer ["uidA"]) emptyDatabase [] 0
     "study1" "seriesX" "stage/" "uidA" rfl rfl (by decide),
   stagingFileCacheSkipsRetrieval.2.2 [] "stage/" "f.dcm"⟩

end DICOMwebBrowser
